import Mathlib

/-!
# Verification of the `workflow` task-orchestration engine

Shallow embedding of the Go package `workflow` (files `workflow.go` / `task.go` /
`group.go` / `errors.go`) and proofs about it.

Conventions of the embedding:
* Go `float64` values are modelled as `ℚ`.  All float arithmetic performed by the
  engine on the values relevant to the claims (sums, products, division by a
  nonzero denominator, parsing of short decimal literals) is exact in `float64`
  terms of the model's inputs, except for the `0.0/0.0` case, which is modelled
  explicitly as `Option.none` (NaN / ±Inf: dividing by a zero total).
* Go `int` is modelled as `Int` (overflow never matters for the claims).
* Fallible operations return `Option`/`Except`-style results.
* External command execution is modelled by a deterministic environment `Env`
  mapping a command string to its observable behaviour.
-/

namespace WorkflowModel

attribute [local semireducible] Rat.add Rat.mul Rat.inv Rat.sub Rat.ofScientific

/-! ## String helpers: models of the Go standard-library functions used -/

/-- `strings.HasPrefix p s` (argument order: the pattern first). -/
def strStarts (p s : String) : Bool :=
  p.toList.isPrefixOf s.toList

/-- `strings.TrimPrefix(s, p)` in the case the prefix is present:
drop `p.length` characters. -/
def dropFront (p s : String) : String :=
  ⟨s.toList.drop p.toList.length⟩

/-- The white-space predicate of `strings.TrimSpace` restricted to the ASCII
space characters (the only ones the engine's own protocol can produce). -/
def isSpaceChar (c : Char) : Bool :=
  c = ' ' || c = '\t' || c = '\n' || c.toNat = 11 || c.toNat = 12 || c = '\r'

/-- `strings.TrimSpace`. -/
def trimSpace (s : String) : String :=
  ⟨((s.toList.dropWhile isSpaceChar).reverse.dropWhile isSpaceChar).reverse⟩

/-! ## A model of `strconv.ParseFloat` on ordinary decimal literals

The model accepts `[+-]? digits [. digits]? ([eE] [+-]? digits)?` (at least one
digit in the mantissa, also of the form `.digits`), and rejects everything
else.  The special spellings Go additionally accepts (`Inf`, `NaN`, hex
mantissas, underscores) do not occur in the claims and are not modelled. -/

/-- Split a leading sign; `true` means negative. -/
def splitSign : List Char → Bool × List Char
  | '-' :: cs => (true, cs)
  | '+' :: cs => (false, cs)
  | cs => (false, cs)

/-- Numeric value of a digit string (the caller guarantees digits). -/
def digitsToNat (ds : List Char) : Nat :=
  ds.foldl (fun a c => a * 10 + (c.toNat - 48)) 0

/-- Parse the decimal mantissa, returning its value and the unread rest. -/
def parseMantissa (cs : List Char) : Option (ℚ × List Char) :=
  let ip := cs.takeWhile Char.isDigit
  let rest := cs.dropWhile Char.isDigit
  match rest with
  | '.' :: rest2 =>
    let fp := rest2.takeWhile Char.isDigit
    let rest3 := rest2.dropWhile Char.isDigit
    if ip.isEmpty && fp.isEmpty then none
    else some ((digitsToNat ip : ℚ) + (digitsToNat fp : ℚ) / ((10 : ℚ) ^ fp.length), rest3)
  | _ => if ip.isEmpty then none else some ((digitsToNat ip : ℚ), rest)

/-- Parse an exponent part (after the `e`/`E`). -/
def parseExpPart (cs : List Char) : Option (Int × List Char) :=
  let p := splitSign cs
  let ds := p.2.takeWhile Char.isDigit
  let rest := p.2.dropWhile Char.isDigit
  if ds.isEmpty then none
  else some (if p.1 then -(digitsToNat ds : Int) else (digitsToNat ds : Int), rest)

/-- `strconv.ParseFloat(s, 64)`, modelled on decimal literals; `none` is a parse
error. -/
def parseFloat? (s : String) : Option ℚ :=
  let p := splitSign s.toList
  match parseMantissa p.2 with
  | none => none
  | some (m, rest) =>
    let signed : ℚ := if p.1 then -m else m
    match rest with
    | [] => some signed
    | 'e' :: rest2 =>
      match parseExpPart rest2 with
      | some (e, []) => some (signed * (10 : ℚ) ^ e)
      | _ => none
    | 'E' :: rest2 =>
      match parseExpPart rest2 with
      | some (e, []) => some (signed * (10 : ℚ) ^ e)
      | _ => none
    | _ => none

/-! ## Data model (`Task`, `Group`, `Status` from task.go / group.go / workflow.go)

Only the fields the engine itself reads or writes are modelled.  `Definition`
and `Vars` are omitted: they only feed the subprocess environment, which is
absorbed into the deterministic command environment `Env` below.  The pipe
plumbing fields of the Go `Task` (`cmd`, `cmd_Stdout`, ...) are likewise part
of `Env`/`TaskBeh`. -/

/-- `Task` (task.go).  `percent` is the Go `float64` field. -/
structure Task where
  id : String
  cmd : String
  weight : Int
  exits : Bool
  started : Bool := false
  finished : Bool := false
  percent : ℚ := 0
  error : String := ""
deriving DecidableEq, Repr

instance : Inhabited Task := ⟨{ id := "", cmd := "", weight := 0, exits := false }⟩

/-- `Group` (group.go).  `skip_cmd` is unexported in Go and hence not part of
the JSON-persisted form. -/
structure Group where
  id : String
  tasks : List Task
  skip_cmd : String := ""
  skip : Bool := false
  percent : ℚ := 0
  started : Bool := false
  finished : Bool := false
  lastMessage : String := ""
  error : String := ""
deriving DecidableEq, Repr

instance : Inhabited Group := ⟨{ id := "", tasks := [] }⟩

/-- `Status` (workflow.go).  `percent` models the Go `int` field `Percent`;
`none` records that the stored value came from converting a non-finite
`float64` (`int(NaN)` / `int(±Inf)`), which is implementation-defined in Go
and in particular not any specified integer. -/
structure Status where
  groups : List Group
  started : Bool := false
  finished : Bool := false
  percent : Option Int := some 0
  lastMessage : String := ""
  currentGroup : String := ""
  currentTask : String := ""
  error : String := ""
deriving DecidableEq, Repr

instance : Inhabited Status := ⟨{ groups := [] }⟩

/-! ## Positional update helpers

Go mutates tasks and groups through pointers; the model updates them by
position in the containing list. -/

/-- Apply `f` to the element at index `i` (no-op when out of range). -/
def modAt (f : α → α) : Nat → List α → List α
  | _, [] => []
  | 0, a :: as => f a :: as
  | n + 1, a :: as => a :: modAt f n as

/-- The group at index `gi` (default value when out of range). -/
def gAt (s : Status) (gi : Nat) : Group := s.groups.getD gi default

/-- The task at `(gi, ti)`. -/
def taskAt (s : Status) (gi ti : Nat) : Task := ((gAt s gi).tasks).getD ti default

/-- Update the group at index `gi`. -/
def Status.modGroup (s : Status) (gi : Nat) (f : Group → Group) : Status :=
  { s with groups := modAt f gi s.groups }

/-- Update the task at index `ti` of a group. -/
def Group.modTask (g : Group) (ti : Nat) (f : Task → Task) : Group :=
  { g with tasks := modAt f ti g.tasks }

/-- Update the task at `(gi, ti)`. -/
def Status.modTask (s : Status) (gi ti : Nat) (f : Task → Task) : Status :=
  s.modGroup gi (·.modTask ti f)

/-! ## Progress aggregation (`Group.progress`, `Workflow.progress`,
`Workflow.percent`, `Workflow.writeStatus`) -/

/-- The `(current, total)` sums computed by `Group.progress` (group.go:50-71):
a finished task contributes its full weight, an unfinished one
`weight * percent` (the raw reported value, unclamped). -/
def Group.progressSums (g : Group) : ℚ × ℚ :=
  g.tasks.foldl
    (fun p t =>
      (p.1 + (if t.finished then (t.weight : ℚ) else (t.weight : ℚ) * t.percent),
       p.2 + (t.weight : ℚ)))
    (0, 0)

/-- The side effects of `Group.progress` on the group: `Finished` is set to
"every task finished", `Percent` to `current/total*100` when `total > 0`
(otherwise kept). -/
def Group.progressUpd (g : Group) : Group :=
  { g with
    finished := g.tasks.all (·.finished)
    percent :=
      if 0 < g.progressSums.2 then g.progressSums.1 / g.progressSums.2 * 100 else g.percent }

/-- `Workflow.progress` (workflow.go:463-475): sums over the non-skipped
groups only; skipped groups are excluded from numerator and denominator. -/
def Status.progressSums (s : Status) : ℚ × ℚ :=
  s.groups.foldl
    (fun p g => if g.skip then p else (p.1 + g.progressSums.1, p.2 + g.progressSums.2))
    (0, 0)

/-- Go's `int(x)` conversion on a finite `float64`: truncation toward zero. -/
def goTrunc (q : ℚ) : Int := q.num.tdiv (q.den : Int)

/-- `Workflow.percent` (workflow.go:458-461) computes
`current/total*100` in `float64`; with `total = 0` this is `0.0/0.0 = NaN`
(or `±Inf` when `current ≠ 0`), modelled as `none`. -/
def Status.percentFloat (s : Status) : Option ℚ :=
  if s.progressSums.2 = 0 then none else some (s.progressSums.1 / s.progressSums.2 * 100)

/-- `Workflow.writeStatus` (workflow.go:477-493): runs `Group.progress` on
every non-skipped group (mutating their `Finished`/`Percent`), then stores
`int(percent())` in `Status.Percent` and writes the JSON snapshot.  The model
returns the updated in-memory status; the written file contents are
`persist` of it. -/
def writeStatus (s : Status) : Status :=
  let s2 : Status := { s with groups := s.groups.map fun g => if g.skip then g else g.progressUpd }
  { s2 with percent := s2.percentFloat.map goTrunc }

/-- JSON round-trip of a persisted status: every modelled field survives
except the unexported `Group.skip_cmd`, which is dropped. -/
def persist (s : Status) : Status :=
  { s with groups := s.groups.map fun g => { g with skip_cmd := "" } }

/-! ## Task IPC stream (task.go:89-224 and the reader goroutine of
`Workflow.Start`, workflow.go:331-379)

A task's subprocess writes newline-terminated lines into the FIFO.  The
reader goroutine inside `Task.run` (task.go:167-196) forwards every line to
the observers (`cmd_WFout`) until it sees the sentinel `end::` line, which
terminates the stream and is itself never forwarded.  `Task.run` writes the
sentinel after the subprocess exits, so the workflow-side reader sees exactly
the forwarded lines. -/

/-- The sentinel line. -/
def endLine : String := "end::\n"

/-- Lines forwarded by the reader goroutine of `Task.run`: everything before
the first sentinel, never the sentinel itself. -/
def forwardLines : List String → List String
  | [] => []
  | l :: ls => if l = endLine then [] else l :: forwardLines ls

/-- One step of the line classifier in `Workflow.Start`'s reader goroutine
(workflow.go:345-368), acting on the task at `(gi, ti)` (the engine's
`currentTask`) inside its group.  Returns the updated status and whether the
per-line `writeStatus`/`writeSockets` pair runs for this line (a
`progress::` line whose payload fails to parse executes `continue`,
skipping both). -/
def procLineCore (s : Status) (gi ti : Nat) (line : String) : Status × Bool :=
  if strStarts "progress:: " line then
    match parseFloat? (trimSpace (dropFront "progress:: " line)) with
    | none => (s, false)
    | some v => (s.modTask gi ti fun t => { t with percent := v }, true)
  else if strStarts "output:: " line then
    let m := trimSpace (dropFront "output:: " line)
    ({ s.modGroup gi (fun g => { g with lastMessage := m }) with lastMessage := m }, true)
  else if strStarts "error:: " line then
    let e := trimSpace (dropFront "error:: " line)
    ({ s.modGroup gi (fun g => { g.modTask ti (fun t => { t with error := e })
        with error := e }) with error := e }, true)
  else (s, true)

/-- Process one line, emitting the persisted snapshot when the classifier
persists. -/
def procLine (s : Status) (gi ti : Nat) (line : String) : Status × List Status :=
  let r := procLineCore s gi ti line
  if r.2 then (writeStatus r.1, [persist (writeStatus r.1)]) else (r.1, [])

/-- Process the whole forwarded line stream of one task. -/
def runLines (gi ti : Nat) : Status → List String → Status × List Status
  | s, [] => (s, [])
  | s, l :: ls =>
    let r := procLine s gi ti l
    let r2 := runLines gi ti r.1 ls
    (r2.1, r.2 ++ r2.2)

/-! ## The deterministic command environment

All external behaviour is a deterministic function of the executed command
string: the lines a task script writes into the FIFO, the error returned by
`Task.run` (the subprocess exit), and the exit status of a group's skip
predicate.  The workflow directory, resolved variables and file-system
success (status writes, FIFO setup) are fixed and absorbed into this
environment. -/

/-- Observable behaviour of one task command. -/
structure TaskBeh where
  lines : List String := []
  runErr : Option String := none
deriving DecidableEq

/-- The environment: task behaviour by `cmd`, skip-predicate outcome by
`skip_cmd` (`true` = exit status 0 = skip). -/
structure Env where
  beh : String → TaskBeh
  skips : String → Bool

/-- Escapes out of the main loop of `Workflow.Start`: an error return, or
process death by `os.Exit(128)` for an `exits` task. -/
inductive Esc
  | fail (e : String)
  | exited
deriving DecidableEq

/-- Overall outcome of a `Start` invocation. -/
inductive Outcome
  | ok
  | fail (e : String)
  | exited
deriving DecidableEq

/-- Result of a fragment of the main loop. -/
structure RunRes where
  s : Status
  seeking : Bool
  trace : List Status
  log : List String
  esc : Option Esc
deriving DecidableEq

/-- The error-recording step of `Workflow.Start` (workflow.go:385-391): a run
error is written to task, group and workflow — and `Status.Finished` set —
only when the task has not already self-reported an error. -/
def recordRunError (s : Status) (gi ti : Nat) (e : String) : Status :=
  if (taskAt s gi ti).error = "" then
    { s.modGroup gi (fun g => { g.modTask ti (fun u => { u with error := e })
        with error := e }) with error := e, finished := true }
  else s

/-- The per-task body of `Workflow.Start` (workflow.go:319-406), from
`w.Status.CurrentTask = task.Id` through the post-`run` handling, for the
task `t` at `(gi, ti)`: record `currentTask`, persist, mark the task
started, drain the IPC stream (persisting after each recognised line), then
handle the `task.run` result: on an error, record it (`recordRunError`),
persist, and return the error; on success the task is marked finished unless
it `exits`, in which case the process dies with `os.Exit(128)` right after
the persist/broadcast. -/
def runTaskBody (env : Env) (s : Status) (gi ti : Nat) (t : Task) : RunRes :=
  let s1 : Status := { s with currentTask := t.id }
  let s2 := writeStatus s1
  let s3 := s2.modTask gi ti fun u => { u with started := true }
  let r := runLines gi ti s3 (forwardLines (env.beh t.cmd).lines)
  match (env.beh t.cmd).runErr with
  | some e =>
    let s6 := writeStatus (recordRunError r.1 gi ti e)
    ⟨s6, false, [persist s2] ++ r.2 ++ [persist s6], [t.cmd], some (.fail e)⟩
  | none =>
    let s5 := if t.exits then r.1 else r.1.modTask gi ti fun u => { u with finished := true }
    let s6 := writeStatus s5
    ⟨s6, false, [persist s2] ++ r.2 ++ [persist s6], [t.cmd],
      if t.exits then some .exited else none⟩

/-- Mark a task synthetically started+finished (the seeking paths,
workflow.go:304-317). -/
def markTask (s : Status) (gi ti : Nat) : Status :=
  s.modTask gi ti fun u => { u with started := true, finished := true }

/-- The task loop of `Workflow.Start` (workflow.go:293-407) over the task
indices `tis` of group `gi`.  Context cancellation is not modelled (no
`Abort` happens during the modelled runs). -/
def runTasks (env : Env) (gi : Nat) : Status → Bool → List Nat → RunRes
  | s, seeking, [] => ⟨s, seeking, [], [], none⟩
  | s, seeking, ti :: tis =>
    let t := taskAt s gi ti
    if seeking && t.id != s.currentTask then
      runTasks env gi (markTask s gi ti) seeking tis
    else if seeking && t.exits then
      runTasks env gi (markTask s gi ti) false tis
    else
      let r := runTaskBody env s gi ti t
      match r.esc with
      | some o => ⟨r.s, false, r.trace, r.log, some o⟩
      | none =>
        let r2 := runTasks env gi r.s false tis
        ⟨r2.s, r2.seeking, r.trace ++ r2.trace, r.log ++ r2.log, r2.esc⟩

/-- Mark a whole group synthetically started+finished (the seek-skip path,
workflow.go:281-290).  Go sets the flags inside the per-task loop, so a
group with no tasks is left untouched. -/
def markGroup (s : Status) (gi : Nat) : Status :=
  if (gAt s gi).tasks.isEmpty then s
  else
    s.modGroup gi fun g =>
      { g with started := true, finished := true,
               tasks := g.tasks.map fun t => { t with started := true, finished := true } }

/-- The group loop of `Workflow.Start` (workflow.go:275-413) over the group
indices `gis`: skipped groups are passed over untouched; while seeking, a
group other than `currentGroup` is synthetically marked; otherwise the group
runs its tasks and is marked finished and persisted. -/
def runGroups (env : Env) : Status → Bool → List Nat → RunRes
  | s, seeking, [] => ⟨s, seeking, [], [], none⟩
  | s, seeking, gi :: gis =>
    let g := gAt s gi
    if g.skip then runGroups env s seeking gis
    else if seeking && g.id != s.currentGroup then
      runGroups env (markGroup s gi) seeking gis
    else
      let s2 := Status.modGroup { s with currentGroup := g.id } gi
        fun g0 => { g0 with started := true }
      let r := runTasks env gi s2 seeking (List.range g.tasks.length)
      match r.esc with
      | some o => ⟨r.s, r.seeking, r.trace, r.log, some o⟩
      | none =>
        let s4 := writeStatus (r.s.modGroup gi fun g0 => { g0 with finished := true })
        let r2 := runGroups env s4 r.seeking gis
        ⟨r2.s, r2.seeking, r.trace ++ [persist s4] ++ r2.trace, r.log ++ r2.log, r2.esc⟩

/-- Result of a whole `Start` invocation.  `trace` is the successive contents
of the persisted status file, `log` the task commands actually executed,
`removed` whether the deferred cleanup deleted the status file (it does not
run when the process dies through `os.Exit(128)`). -/
structure StartRes where
  s : Status
  out : Outcome
  trace : List Status
  log : List String
  removed : Bool
deriving DecidableEq

/-- The skip-evaluation loop of `Workflow.Start` (workflow.go:230-252):
groups with an empty `skip_cmd` keep their loaded `Skip` value; otherwise
`Skip` is set when the predicate exits 0 and kept otherwise. -/
def skipEval (env : Env) (s : Status) : Status :=
  { s with groups := s.groups.map fun g =>
      if g.skip_cmd = "" then g
      else if env.skips g.skip_cmd then { g with skip := true } else g }

/-- `Workflow.Start` (workflow.go:202-417): evaluate every group's skip
predicate, mark the workflow started, persist, enter seeking mode iff the
loaded status names a current task, run the group loop, and on any return
(but not on `os.Exit`) run the deferred finaliser: set `Finished`, persist,
broadcast, delete the status file.  Variable resolution is a no-op here
because its effect on task behaviour is part of `Env`. -/
def start (env : Env) (s0 : Status) : StartRes :=
  let s1 : Status := { skipEval env s0 with started := true }
  let s2 := writeStatus s1
  let seeking := s1.currentTask != ""
  let r := runGroups env s2 seeking (List.range s2.groups.length)
  match r.esc with
  | some .exited => ⟨r.s, .exited, persist s2 :: r.trace, r.log, false⟩
  | some (.fail e) =>
    let sf := writeStatus { r.s with finished := true }
    ⟨sf, .fail e, persist s2 :: r.trace ++ [persist sf], r.log, true⟩
  | none =>
    let sf := writeStatus { r.s with finished := true }
    ⟨sf, .ok, persist s2 :: r.trace ++ [persist sf], r.log, true⟩

/-! ## Observations and well-formedness -/

/-- The task fields compared across runs by the resume-idempotence property:
`started`, `finished`, `percent`. -/
def Task.view (t : Task) : Bool × Bool × ℚ := (t.started, t.finished, t.percent)

/-- The group fields compared: its own `started`/`finished`/`percent` plus its
tasks' views. -/
def Group.view (g : Group) : (Bool × Bool × ℚ) × List (Bool × Bool × ℚ) :=
  ((g.started, g.finished, g.percent), g.tasks.map Task.view)

/-- The status fields compared: all group/task views and the workflow error. -/
def Status.view (s : Status) : List ((Bool × Bool × ℚ) × List (Bool × Bool × ℚ)) × String :=
  (s.groups.map Group.view, s.error)

/-- A freshly initialised status, as `initialize`/`loadGroups`/`newGroup`
produce it on a first run (no persisted state). -/
def Status.Fresh (s : Status) : Prop :=
  s.started = false ∧ s.finished = false ∧ s.percent = some 0 ∧ s.lastMessage = "" ∧
  s.currentGroup = "" ∧ s.currentTask = "" ∧ s.error = "" ∧
  ∀ g ∈ s.groups, g.skip = false ∧ g.percent = 0 ∧ g.started = false ∧ g.finished = false ∧
    g.lastMessage = "" ∧ g.error = "" ∧
    ∀ t ∈ g.tasks, t.started = false ∧ t.finished = false ∧ t.percent = 0 ∧ t.error = ""

/-- The identifier discipline the spec's data model demands (§3): group ids
unique within the workflow, task ids unique within their group, every task
id nonempty, every group nonempty. -/
def Status.WellFormedIds (s : Status) : Prop :=
  (s.groups.map Group.id).Nodup ∧
  ∀ g ∈ s.groups, g.tasks ≠ [] ∧ (g.tasks.map Task.id).Nodup ∧ ∀ t ∈ g.tasks, t.id ≠ ""

/-! ## Canonicalisation of derived fields

`writeStatus` recomputes the `finished`/`percent` fields of every non-skipped
group and the workflow `percent` from the task states.  `scrub` erases
exactly those derived fields (a group's `percent` only when its total weight
is positive, since `Group.progress` keeps the old value otherwise);
`writeStatus` factors through it. -/

/-- Erase the derived fields of one group (`percent` only when the total
weight is positive, since `Group.progress` keeps the old value otherwise). -/
def scrubG (g : Group) : Group :=
  if g.skip then g
  else { g with finished := false,
                percent := if 0 < g.progressSums.2 then 0 else g.percent }

/-- Erase the fields `writeStatus` recomputes. -/
def scrub (s : Status) : Status :=
  { s with percent := none, groups := s.groups.map scrubG }

/-! ## Cumulative line effects

The per-line state updates are last-writer-wins on three independent field
sets, so a whole stream acts like the merge of its lines' effects; this is
the algebra the resume proof uses to absorb the replay of an
already-processed prefix. -/

/-- The cumulative effect of a line stream: last parsed `progress` value,
last `output` payload, last `error` payload. -/
structure LineEff where
  prog : Option ℚ := none
  outp : Option String := none
  errp : Option String := none
deriving DecidableEq

/-- Effect of a single line. -/
def lineEff1 (line : String) : LineEff :=
  if strStarts "progress:: " line then
    { prog := parseFloat? (trimSpace (dropFront "progress:: " line)) }
  else if strStarts "output:: " line then
    { outp := some (trimSpace (dropFront "output:: " line)) }
  else if strStarts "error:: " line then
    { errp := some (trimSpace (dropFront "error:: " line)) }
  else {}

/-- Merge two effects, the second (later) one winning. -/
def mergeEff (a b : LineEff) : LineEff :=
  ⟨b.prog.orElse fun _ => a.prog, b.outp.orElse fun _ => a.outp, b.errp.orElse fun _ => a.errp⟩

/-- Effect of a stream. -/
def lineEff (ls : List String) : LineEff :=
  ls.foldl (fun a l => mergeEff a (lineEff1 l)) {}

/-- Apply an optional `progress` effect. -/
def effProg (gi ti : Nat) (o : Option ℚ) (s : Status) : Status :=
  match o with
  | none => s
  | some v => s.modTask gi ti fun t => { t with percent := v }

/-- Apply an optional `output` effect. -/
def effOut (gi : Nat) (o : Option String) (s : Status) : Status :=
  match o with
  | none => s
  | some m => { s.modGroup gi (fun g => { g with lastMessage := m }) with lastMessage := m }

/-- Apply an optional `error` effect. -/
def effErr (gi ti : Nat) (o : Option String) (s : Status) : Status :=
  match o with
  | none => s
  | some er =>
    { s.modGroup gi (fun g => { g.modTask ti (fun t => { t with error := er })
        with error := er }) with error := er }

/-- Apply a cumulative effect to the status, targeting the task `(gi, ti)`. -/
def applyEff (gi ti : Nat) (e : LineEff) (s : Status) : Status :=
  effErr gi ti e.errp (effOut gi e.outp (effProg gi ti e.prog s))

/-- Whether the classifier persists after this line (everything except a
`progress::` line whose payload fails to parse). -/
def lineKept (line : String) : Bool :=
  !(strStarts "progress:: " line && (parseFloat? (trimSpace (dropFront "progress:: " line))).isNone)

/-- The shape of a status: how many tasks each group has.  Execution never
changes it. -/
def shape (s : Status) : List Nat := s.groups.map fun g => g.tasks.length

/-- The static skeleton of a task: the fields execution never writes. -/
def Task.skel (t : Task) : String × String × Int × Bool := (t.id, t.cmd, t.weight, t.exits)

/-- The static skeleton of a group after skip evaluation: id, skip decision,
and its tasks' skeletons (`skip_cmd` is excluded: persistence erases it). -/
def Group.skel (g : Group) : String × Bool × List (String × String × Int × Bool) :=
  (g.id, g.skip, g.tasks.map Task.skel)

/-- The static skeleton of a status. -/
def skel (s : Status) : List (String × Bool × List (String × String × Int × Bool)) :=
  s.groups.map Group.skel

/-- A fully completed task. -/
def TDone (t : Task) : Prop := t.started = true ∧ t.finished = true

/-- A fully completed group. -/
def GDone (g : Group) : Prop :=
  g.started = true ∧ g.finished = true ∧ ∀ t ∈ g.tasks, TDone t

/-! ## Spec-side comparison definition (claim C1)

The spec describes a task's unfinished contribution as
`weight * clamp(percent, 0, 1)`; the code computes `weight * percent`.  Both
are written out for comparison. -/

/-- The per-task numerator contribution as the code computes it. -/
def Task.contrib (t : Task) : ℚ :=
  if t.finished then (t.weight : ℚ) else (t.weight : ℚ) * t.percent

/-- Modelled from the spec: the contribution the spec's words describe,
`weight` if finished else `weight * clamp(percent, 0, 1)`. -/
def Task.contribClamped (t : Task) : ℚ :=
  if t.finished then (t.weight : ℚ) else (t.weight : ℚ) * (min 1 (max 0 t.percent))

/-! ## Declarative construction (`newTask`, `newGroup`; claim C9) -/

/-- Values of Go's `any` as the YAML unmarshaller produces them. -/
inductive GoVal
  | str (s : String)
  | int (n : Int)
  | bool (b : Bool)
  | list (l : List GoVal)
  | map (m : List (String × GoVal))
  | null

/-- Go map indexing: a missing key yields the nil interface value. -/
def getKey : List (String × GoVal) → String → GoVal
  | [], _ => .null
  | (k, v) :: m, q => if k = q then v else getKey m q

/-- The Go type assertion `.(string)`. -/
def GoVal.asStr : GoVal → Option String
  | .str s => some s
  | _ => none

/-- The Go type assertion `.(int)`. -/
def GoVal.asInt : GoVal → Option Int
  | .int n => some n
  | _ => none

/-- The Go type assertion `.(bool)`. -/
def GoVal.asBool : GoVal → Option Bool
  | .bool b => some b
  | _ => none

/-- The Go type assertion `.([]any)`. -/
def GoVal.asList : GoVal → Option (List GoVal)
  | .list l => some l
  | _ => none

/-- The Go type assertion `.(map[string]any)`. -/
def GoVal.asMap : GoVal → Option (List (String × GoVal))
  | .map m => some m
  | _ => none

/-- The error values of errors.go. -/
inductive WErr
  | noGroups
  | invalidVars
  | groupMissingId
  | groupMissingTasks
  | taskMissingId
  | taskMissingCmd
  | notFinished
deriving DecidableEq

/-- Result of a Go function that can also panic (an unchecked type
assertion on a non-conforming value). -/
inductive GoResult (α : Type)
  | ok (a : α)
  | err (e : WErr)
  | panics

/-- `newTask` (task.go:60-87): requires a string `id` and a nonempty string
`cmd`; `weight` defaults to 1 when absent, non-integer or zero; `exits`
defaults to false. -/
def newTask (y : List (String × GoVal)) : Except WErr Task :=
  match (getKey y "id").asStr with
  | none => .error .taskMissingId
  | some id =>
    match (getKey y "cmd").asStr with
    | none => .error .taskMissingCmd
    | some cmd =>
      if cmd = "" then .error .taskMissingCmd
      else
        let w := ((getKey y "weight").asInt).getD 0
        .ok { id := id, cmd := cmd, weight := if w = 0 then 1 else w,
              exits := ((getKey y "exits").asBool).getD false }

/-- The task-construction loop of `newGroup` (group.go:39-45); a non-map
entry makes the type assertion `tasks[i].(map[string]any)` panic. -/
def buildTasks : List GoVal → GoResult (List Task)
  | [] => .ok []
  | v :: vs =>
    match v.asMap with
    | none => .panics
    | some m =>
      match newTask m with
      | .error e => .err e
      | .ok t =>
        match buildTasks vs with
        | .ok ts => .ok (t :: ts)
        | .err e => .err e
        | .panics => .panics

/-- `newGroup` (group.go:20-48): requires a string `id` and a `tasks` value
that is a list (of any length, the emptiness is not checked); `skip_cmd` is
optional. -/
def newGroup (y : List (String × GoVal)) : GoResult Group :=
  match (getKey y "id").asStr with
  | none => .err .groupMissingId
  | some id =>
    match (getKey y "tasks").asList with
    | none => .err .groupMissingTasks
    | some tasks =>
      match buildTasks tasks with
      | .ok ts => .ok { id := id, tasks := ts,
                        skip_cmd := ((getKey y "skip_cmd").asStr).getD "" }
      | .err e => .err e
      | .panics => .panics

/-! ## The system-call skeleton of `Task.run` (claim C10) -/

/-- Results of the file-system/process primitives one `Task.run` invocation
performs. -/
structure RunSysEnv where
  mkdirTempFails : Bool
  mknodErr : Option String
  startErr : Option String
  waitErr : Option String
deriving DecidableEq

/-- Control-flow model of `Task.run` (task.go:89-224) at the granularity of
its early exits: the pair is (returned error, whether the subprocess ran).
When `os.MkdirTemp` fails the function returns `nil` — reporting success —
without starting the subprocess (task.go:134-137); a `Mknod` failure is
returned as an error before the subprocess starts; otherwise the subprocess
runs (when `cmd.Start` succeeds) and `cmd.Wait`'s error is returned after
the sentinel drain. -/
def Task.runSys (re : RunSysEnv) : Option String × Bool :=
  if re.mkdirTempFails then (none, false)
  else
    match re.mknodErr with
    | some e => (some e, false)
    | none => (re.waitErr, re.startErr = none)

/-! ## Concrete inputs used by counterexamples and witnesses -/

/-- An unfinished task whose last reported progress exceeds 1. -/
def c1Task : Task := { id := "t", cmd := "c", weight := 1, exits := false, percent := 2 }

/-- A group holding `c1Task`. -/
def c1Group : Group := { id := "g", tasks := [c1Task] }

/-- Three groups: the middle one has an empty task list. -/
def c2Status : Status :=
  { groups :=
      [{ id := "A", tasks := [{ id := "tA", cmd := "cA", weight := 1, exits := false }] },
       { id := "B", tasks := [] },
       { id := "C", tasks := [{ id := "tC", cmd := "cC", weight := 1, exits := false }] }] }

/-- Environment for `c2Status`: task `cC` reports 70% then finishes. -/
def c2Env : Env :=
  { beh := fun c => if c = "cC" then { lines := ["progress:: 0.7\n"] } else { lines := [] }
    skips := fun _ => false }

/-- A two-group workflow with distinct nonempty ids (resume witness). -/
def c2wStatus : Status :=
  { groups :=
      [{ id := "A", tasks := [{ id := "tA", cmd := "cA", weight := 1, exits := false }] },
       { id := "B", tasks := [{ id := "tB", cmd := "cB", weight := 3, exits := false }] }] }

/-- Environment for `c2wStatus`. -/
def c2wEnv : Env :=
  { beh := fun c => if c = "cB" then { lines := ["progress:: 0.5\n", "output:: hi\n"] }
                    else { lines := [] }
    skips := fun _ => false }

/-- One group with a skip predicate and one task. -/
def c4Status : Status :=
  { groups := [{ id := "g", skip_cmd := "sk",
                 tasks := [{ id := "t", cmd := "c", weight := 1, exits := false }] }] }

/-- Environment for `c4Status`: the skip predicate exits 0. -/
def c4Env : Env :=
  { beh := fun _ => { lines := ["progress:: 0.7\n"] }, skips := fun _ => true }

/-- A status whose only group is skipped. -/
def c5Status : Status :=
  { groups := [{ id := "g", skip := true,
                 tasks := [{ id := "t", cmd := "c", weight := 1, exits := false }] }] }

/-- One group, one task. -/
def c8Status : Status :=
  { groups := [{ id := "g", tasks := [{ id := "t", cmd := "c", weight := 1, exits := false }] }] }

/-- Environment for `c8Status`: the task self-reports error A, then error B,
and exits 0. -/
def c8Env : Env :=
  { beh := fun _ => { lines := ["error:: A\n", "error:: B\n"] }, skips := fun _ => false }

/-- A declarative group map with a string id and an empty tasks list. -/
def c9EmptyTasks : List (String × GoVal) := [("id", .str "g"), ("tasks", .list [])]

/-- One group with an `exits` task followed by another task. -/
def c3Status : Status :=
  { groups := [{ id := "g",
                 tasks := [{ id := "t1", cmd := "c1", weight := 1, exits := true },
                           { id := "t2", cmd := "c2", weight := 1, exits := false }] }] }

/-- Environment for `c3Status`: both commands succeed silently. -/
def c3Env : Env := { beh := fun _ => { lines := [] }, skips := fun _ => false }

/-- `c7Status` with the first task already carrying a self-reported error. -/
def c7SelfStatus : Status :=
  { groups := [{ id := "g",
                 tasks := [{ id := "t1", cmd := "c1", weight := 1, exits := false,
                             error := "self" },
                           { id := "t2", cmd := "c2", weight := 1, exits := false }] }] }

/-- One group, one failing task. -/
def c7Status : Status :=
  { groups := [{ id := "g",
                 tasks := [{ id := "t1", cmd := "c1", weight := 1, exits := false },
                           { id := "t2", cmd := "c2", weight := 1, exits := false }] }] }

/-- Environment for `c7Status`: `c1` exits non-zero without self-reporting. -/
def c7Env : Env :=
  { beh := fun c => if c = "c1" then { runErr := some "exit status 1" } else {}
    skips := fun _ => false }

attribute [ext] Task Group Status

/-! # Theorems

## Positional-update toolkit -/

theorem modAt_nil (f : α → α) (i : Nat) : modAt f i ([] : List α) = [] := by
  cases i <;> rfl

theorem length_modAt (f : α → α) (i : Nat) (l : List α) :
    (modAt f i l).length = l.length := by
  induction l generalizing i with
  | nil => cases i <;> rfl
  | cons a as ih =>
    cases i with
    | zero => rfl
    | succ n => simpa [modAt] using ih n

theorem modAt_ge (f : α → α) {i : Nat} {l : List α} (h : l.length ≤ i) :
    modAt f i l = l := by
  induction l generalizing i with
  | nil => cases i <;> rfl
  | cons a as ih =>
    cases i with
    | zero => simp at h
    | succ n => simp only [modAt]; rw [ih (by simpa using h)]

theorem getD_modAt_self (f : α → α) {i : Nat} {l : List α} (d : α) (h : i < l.length) :
    (modAt f i l).getD i d = f (l.getD i d) := by
  induction l generalizing i with
  | nil => simp at h
  | cons a as ih =>
    cases i with
    | zero => rfl
    | succ n => simpa [modAt] using ih (by simpa using h)

theorem getD_modAt_ne (f : α → α) {i j : Nat} (l : List α) (d : α) (h : i ≠ j) :
    (modAt f i l).getD j d = l.getD j d := by
  induction l generalizing i j with
  | nil => cases i <;> rfl
  | cons a as ih =>
    cases i with
    | zero => cases j with
      | zero => exact absurd rfl h
      | succ m => rfl
    | succ n =>
      cases j with
      | zero => rfl
      | succ m => simpa [modAt] using ih (by omega)

theorem getD_modAt (f : α → α) (i j : Nat) (l : List α) (d : α) :
    (modAt f i l).getD j d
      = if i = j ∧ j < l.length then f (l.getD j d) else l.getD j d := by
  by_cases hij : i = j
  · subst hij
    by_cases hl : i < l.length
    · rw [if_pos ⟨rfl, hl⟩, getD_modAt_self f d hl]
    · rw [if_neg (by omega), modAt_ge f (by omega)]
  · rw [if_neg (by simp [hij]), getD_modAt_ne f l d hij]

theorem modAt_eq_self {f : α → α} {i : Nat} {l : List α} (d : α)
    (h : f (l.getD i d) = l.getD i d) : modAt f i l = l := by
  induction l generalizing i with
  | nil => cases i <;> rfl
  | cons a as ih =>
    cases i with
    | zero => simpa [modAt] using h
    | succ n => simp only [modAt]; rw [ih (by simpa using h)]

theorem modAt_modAt_self (f g : α → α) (i : Nat) (l : List α) :
    modAt f i (modAt g i l) = modAt (fun a => f (g a)) i l := by
  induction l generalizing i with
  | nil => cases i <;> rfl
  | cons a as ih =>
    cases i with
    | zero => rfl
    | succ n => simp only [modAt]; rw [ih]

theorem map_modAt_eq (h : α → β) (f : α → α) (i : Nat) (l : List α)
    (hp : ∀ a, h (f a) = h a) : (modAt f i l).map h = l.map h := by
  induction l generalizing i with
  | nil => cases i <;> rfl
  | cons a as ih =>
    cases i with
    | zero => simp [modAt, hp]
    | succ n => simp only [modAt, List.map_cons]; rw [ih]

theorem map_modAt (h : α → β) (f : α → α) (g : β → β) (i : Nat) (l : List α)
    (hp : ∀ a, h (f a) = g (h a)) : (modAt f i l).map h = modAt g i (l.map h) := by
  induction l generalizing i with
  | nil => cases i <;> rfl
  | cons a as ih =>
    cases i with
    | zero => simp [modAt, hp]
    | succ n => simp only [modAt, List.map_cons]; rw [ih]

theorem getD_map_rel (P : α → β → Prop) (F : α → β) {l : List α} {i : Nat}
    {dα : α} {dβ : β} (h : ∀ a, P a (F a)) (hd : P dα dβ) :
    P (l.getD i dα) ((l.map F).getD i dβ) := by
  induction l generalizing i with
  | nil => simpa using hd
  | cons a as ih =>
    cases i with
    | zero => simpa using h a
    | succ n => simpa using ih

/-! ## Progress-sum characterisations -/

theorem progressSums_foldl (l : List Task) (p : ℚ × ℚ) :
    l.foldl
      (fun p t =>
        (p.1 + (if t.finished then (t.weight : ℚ) else (t.weight : ℚ) * t.percent),
         p.2 + (t.weight : ℚ))) p
      = (p.1 + (l.map Task.contrib).sum, p.2 + (l.map fun t => (t.weight : ℚ)).sum) := by
  induction l generalizing p with
  | nil => simp
  | cons t ts ih => simp [ih, Task.contrib, add_assoc]

theorem group_progressSums_eq (g : Group) :
    g.progressSums = ((g.tasks.map Task.contrib).sum, (g.tasks.map fun t => (t.weight : ℚ)).sum) := by
  have h := progressSums_foldl g.tasks (0, 0)
  simpa [Group.progressSums] using h

theorem status_progressSums_foldl (l : List Group) (p : ℚ × ℚ) :
    l.foldl (fun p g => if g.skip then p else (p.1 + g.progressSums.1, p.2 + g.progressSums.2)) p
      = (p.1 + (((l.filter fun g => !g.skip).map fun g => g.progressSums.1).sum),
         p.2 + (((l.filter fun g => !g.skip).map fun g => g.progressSums.2).sum)) := by
  induction l generalizing p with
  | nil => simp
  | cons g gs ih =>
    by_cases h : g.skip
    · simp [h, ih]
    · simp [h, ih, add_assoc]

theorem status_progressSums_filter (s : Status) :
    s.progressSums
      = ((((s.groups.filter fun g => !g.skip).map fun g => g.progressSums.1).sum),
         (((s.groups.filter fun g => !g.skip).map fun g => g.progressSums.2).sum)) := by
  have h := status_progressSums_foldl s.groups (0, 0)
  simpa [Status.progressSums] using h

/-- C1, counterexample: a task of weight 1 with reported percent 2 that is not
finished contributes 2 to the numerator, while the spec's clamped formula
gives 1: the claim's `clamp(percent, 0, 1)` does not happen in the code. -/
theorem c1_clamp_counterexample :
    c1Task.finished = false ∧ c1Task.weight = 1 ∧ c1Task.percent = 2 ∧
    Group.progressSums c1Group = (2, 1) ∧
    (c1Group.tasks.map Task.contribClamped).sum = 1 := by decide

/-- C1 (amended): a task contributes its full `weight` when finished —
regardless of the last reported percent — and `weight * percent` (the raw
reported value, not clamped) otherwise; the group's numerator/denominator
are the sums of those contributions and of the weights. -/
theorem c1_contribution :
    (∀ g : Group,
      g.progressSums
        = ((g.tasks.map Task.contrib).sum, (g.tasks.map fun t => (t.weight : ℚ)).sum)) ∧
    (∀ t : Task, t.finished = true → Task.contrib t = t.weight) ∧
    (∀ t : Task, t.finished = false → Task.contrib t = (t.weight : ℚ) * t.percent) := by
  refine ⟨group_progressSums_eq, ?_, ?_⟩
  · intro t ht; simp [Task.contrib, ht]
  · intro t ht; simp [Task.contrib, ht]

/-- Witness for `c1_contribution` at concrete inputs. -/
theorem c1_contribution_witness :
    Group.progressSums c1Group
        = ((c1Group.tasks.map Task.contrib).sum, (c1Group.tasks.map fun t => (t.weight : ℚ)).sum) ∧
    Task.contrib { c1Task with finished := true } = ({ c1Task with finished := true } : Task).weight ∧
    Task.contrib c1Task = (c1Task.weight : ℚ) * c1Task.percent :=
  ⟨c1_contribution.1 c1Group, c1_contribution.2.1 _ rfl, c1_contribution.2.2 c1Task rfl⟩

/-! ## Claim C5: the all-skipped / zero-total case -/

theorem progressSums_all_skip (s : Status) (h : ∀ g ∈ s.groups, g.skip = true) :
    s.progressSums = (0, 0) := by
  rw [status_progressSums_filter]
  have hf : s.groups.filter (fun g => !g.skip) = [] := by
    rw [List.filter_eq_nil_iff]
    intro g hg
    simp [h g hg]
  simp [hf]

theorem writeStatus_groups_all_skip (s : Status) (h : ∀ g ∈ s.groups, g.skip = true) :
    s.groups.map (fun g => if g.skip then g else g.progressUpd) = s.groups := by
  have h2 : s.groups.map (fun g => if g.skip then g else g.progressUpd) = s.groups.map id :=
    List.map_congr_left fun g hg => by simp [h g hg]
  simpa using h2

/-- C5 (code bug relative to the spec): when every group is skipped the total
weight is 0 and `Workflow.percent` computes `0.0/0.0 = NaN` in `float64`;
`writeStatus` then stores `int(NaN)` — an implementation-defined value, not
the 0 the spec mandates.  The model records this as `none`: the persisted
`Percent` is not `some 0` (nor any specified integer). -/
theorem c5_all_skipped_percent (s : Status) (h : ∀ g ∈ s.groups, g.skip = true) :
    s.percentFloat = none ∧ (writeStatus s).percent = none := by
  have hz : s.progressSums = (0, 0) := progressSums_all_skip s h
  have h1 : s.percentFloat = none := by simp [Status.percentFloat, hz]
  have h2 : Status.percentFloat
      { s with groups := s.groups.map fun g => if g.skip then g else g.progressUpd } = none := by
    rw [writeStatus_groups_all_skip s h]
    exact h1
  refine ⟨h1, ?_⟩
  simp [writeStatus, h2]

/-- Witness for `c5_all_skipped_percent`: a one-group, all-skipped status. -/
theorem c5_all_skipped_percent_witness :
    (∀ g ∈ c5Status.groups, g.skip = true) ∧
    c5Status.percentFloat = none ∧ (writeStatus c5Status).percent = none :=
  ⟨by decide, c5_all_skipped_percent c5Status (by decide)⟩

/-! ## Claim C6: strict prefix classification of IPC lines -/

theorem forward_no_end (ls : List String) : endLine ∉ forwardLines ls := by
  induction ls with
  | nil => simp [forwardLines]
  | cons l ls ih =>
    by_cases h : l = endLine
    · simp [forwardLines, h]
    · simp only [forwardLines, if_neg h, List.mem_cons]
      rintro (rfl | hmem)
      · exact h rfl
      · exact ih hmem

theorem forward_stops (pre post : List String) (h : endLine ∉ pre) :
    forwardLines (pre ++ endLine :: post) = forwardLines pre := by
  induction pre with
  | nil => simp [forwardLines]
  | cons l ls ih =>
    have hl : l ≠ endLine := fun he => h (by simp [he])
    simp only [List.cons_append, forwardLines, if_neg hl, List.append_eq]
    rw [ih fun hm => h (by simp [hm])]

/-- C6: classification is strictly by exact prefix — `progress:: 0.5` sets the
current task's percent to `0.5` (and persists), `progress:: abc` is dropped
without altering any task, group or workflow state (and without persisting),
and the sentinel `end::` line terminates the forwarded stream and is never
itself forwarded to the observers. -/
theorem c6_line_classification :
    (∀ (s : Status) (gi ti : Nat),
      procLineCore s gi ti "progress:: 0.5\n"
        = (s.modTask gi ti fun t => { t with percent := 1/2 }, true)) ∧
    (∀ (s : Status) (gi ti : Nat), procLineCore s gi ti "progress:: abc\n" = (s, false)) ∧
    (∀ ls : List String, endLine ∉ forwardLines ls) ∧
    (∀ pre post : List String, endLine ∉ pre →
      forwardLines (pre ++ endLine :: post) = forwardLines pre) := by
  exact ⟨fun s gi ti => rfl, fun s gi ti => rfl, forward_no_end, forward_stops⟩

/-- Witness for `c6_line_classification` (the last conjunct has a
hypothesis): concrete streams. -/
theorem c6_line_classification_witness :
    procLineCore c8Status 0 0 "progress:: 0.5\n"
      = (c8Status.modTask 0 0 fun t => { t with percent := 1/2 }, true) ∧
    procLineCore c8Status 0 0 "progress:: abc\n" = (c8Status, false) ∧
    endLine ∉ forwardLines ["output:: a\n", endLine, "output:: b\n"] ∧
    forwardLines (["output:: a\n"] ++ endLine :: ["output:: b\n"])
      = forwardLines ["output:: a\n"] :=
  ⟨c6_line_classification.1 c8Status 0 0, c6_line_classification.2.1 c8Status 0 0,
   c6_line_classification.2.2.1 _, c6_line_classification.2.2.2 _ _ (by decide)⟩

/-! ## Claim C9: declarative group construction -/

theorem newTask_ok_iff (m : List (String × GoVal)) :
    (∃ t, newTask m = .ok t) ↔
      ((∃ i, (getKey m "id").asStr = some i) ∧
       (∃ c, (getKey m "cmd").asStr = some c ∧ c ≠ "")) := by
  cases hid : (getKey m "id").asStr with
  | none => simp [newTask, hid]
  | some i =>
    cases hcmd : (getKey m "cmd").asStr with
    | none => simp [newTask, hid, hcmd]
    | some c =>
      by_cases hc : c = ""
      · simp [newTask, hid, hcmd, hc]
      · simp [newTask, hid, hcmd, hc]

theorem buildTasks_ok_iff (vs : List GoVal) :
    (∃ l, buildTasks vs = .ok l) ↔
      ∀ v ∈ vs, ∃ m, v.asMap = some m ∧ ∃ t, newTask m = .ok t := by
  induction vs with
  | nil => simp [buildTasks]
  | cons v vs ih =>
    cases hm : v.asMap with
    | none =>
      constructor
      · rintro ⟨l, hl⟩
        simp [buildTasks, hm] at hl
      · intro hall
        obtain ⟨m, hm2, -⟩ := hall v (by simp)
        rw [hm] at hm2
        cases hm2
    | some m =>
      cases ht : newTask m with
      | error e =>
        constructor
        · rintro ⟨l, hl⟩
          simp [buildTasks, hm, ht] at hl
        · intro hall
          obtain ⟨m2, hm2, t, ht2⟩ := hall v (by simp)
          rw [hm] at hm2
          cases hm2
          rw [ht] at ht2
          cases ht2
      | ok t =>
        cases hb : buildTasks vs with
        | ok l2 =>
          constructor
          · intro _ w hw
            rcases List.mem_cons.mp hw with rfl | hw2
            · exact ⟨m, hm, t, ht⟩
            · exact (ih.mp ⟨l2, hb⟩) w hw2
          · intro _
            exact ⟨t :: l2, by simp [buildTasks, hm, ht, hb]⟩
        | err e =>
          constructor
          · rintro ⟨l, hl⟩
            simp [buildTasks, hm, ht, hb] at hl
          · intro hall
            obtain ⟨l2, hl2⟩ := ih.mpr fun w hw => hall w (by simp [hw])
            rw [hb] at hl2
            cases hl2
        | panics =>
          constructor
          · rintro ⟨l, hl⟩
            simp [buildTasks, hm, ht, hb] at hl
          · intro hall
            obtain ⟨l2, hl2⟩ := ih.mpr fun w hw => hall w (by simp [hw])
            rw [hb] at hl2
            cases hl2

/-- C9 counterexample: a declarative map with a string id and an *empty*
tasks list is accepted by `newGroup` — the claimed rejection of empty task
lists does not happen (only the type assertion `.([]any)` is checked). -/
theorem c9_empty_tasks_counterexample :
    newGroup c9EmptyTasks = .ok { id := "g", tasks := [], skip_cmd := "" } ∧
    ∀ e, newGroup c9EmptyTasks ≠ .err e := by
  refine ⟨rfl, fun e h => ?_⟩
  rw [show newGroup c9EmptyTasks = .ok { id := "g", tasks := [], skip_cmd := "" } from rfl] at h
  exact GoResult.noConfusion h

/-- C9 (amended): `newGroup` succeeds iff the map holds a string `id` and a
`tasks` list (possibly empty) whose entries are all maps yielding valid
tasks (string `id`, nonempty string `cmd`); a missing/non-string `id` is
rejected with `WorkflowErrorGroupMissingId`, a missing/non-list `tasks` with
`WorkflowErrorGroupMissingTasks`; the empty tasks list is accepted. -/
theorem c9_group_construction :
    (∀ y, (∃ g, newGroup y = .ok g) ↔
        ((∃ i, (getKey y "id").asStr = some i) ∧
         (∃ ts, (getKey y "tasks").asList = some ts ∧
            ∀ v ∈ ts, ∃ m, v.asMap = some m ∧ ∃ t, newTask m = .ok t))) ∧
    (∀ y, (getKey y "id").asStr = none → newGroup y = .err .groupMissingId) ∧
    (∀ y i, (getKey y "id").asStr = some i → (getKey y "tasks").asList = none →
        newGroup y = .err .groupMissingTasks) ∧
    (∀ m, (∃ t, newTask m = .ok t) ↔
      ((∃ i, (getKey m "id").asStr = some i) ∧
       (∃ c, (getKey m "cmd").asStr = some c ∧ c ≠ ""))) ∧
    newGroup c9EmptyTasks = .ok { id := "g", tasks := [], skip_cmd := "" } := by
  refine ⟨?_, ?_, ?_, newTask_ok_iff, rfl⟩
  · intro y
    cases hid : (getKey y "id").asStr with
    | none =>
      simp only [newGroup, hid]
      constructor
      · rintro ⟨g, hg⟩
        cases hg
      · rintro ⟨⟨i, hi⟩, -⟩
        cases hi
    | some i =>
      cases hts : (getKey y "tasks").asList with
      | none =>
        simp only [newGroup, hid, hts]
        constructor
        · rintro ⟨g, hg⟩
          cases hg
        · rintro ⟨-, ts, hts2, -⟩
          cases hts2
      | some ts =>
        constructor
        · rintro ⟨g, hg⟩
          refine ⟨⟨i, rfl⟩, ts, rfl, ?_⟩
          apply (buildTasks_ok_iff ts).mp
          simp only [newGroup, hid, hts] at hg
          cases hb : buildTasks ts with
          | ok l => exact ⟨l, rfl⟩
          | err e => rw [hb] at hg; cases hg
          | panics => rw [hb] at hg; cases hg
        · rintro ⟨-, ts2, hts2, hall⟩
          cases hts2
          obtain ⟨l, hl⟩ := (buildTasks_ok_iff ts).mpr hall
          refine ⟨{ id := i, tasks := l, skip_cmd := ((getKey y "skip_cmd").asStr).getD "" }, ?_⟩
          simp [newGroup, hid, hts, hl]
  · intro y hy
    simp [newGroup, hy]
  · intro y i hy hts
    simp [newGroup, hy, hts]

/-- Witness for `c9_group_construction` at concrete maps. -/
theorem c9_group_construction_witness :
    ((∃ i, (getKey c9EmptyTasks "id").asStr = some i) ∧
     (∃ ts, (getKey c9EmptyTasks "tasks").asList = some ts ∧
        ∀ v ∈ ts, ∃ m, v.asMap = some m ∧ ∃ t, newTask m = .ok t)) ∧
    newGroup [] = .err .groupMissingId ∧
    newGroup [("id", .str "g")] = .err .groupMissingTasks := by
  refine ⟨(c9_group_construction.1 c9EmptyTasks).mp ⟨_, rfl⟩, ?_, ?_⟩
  · exact c9_group_construction.2.1 [] rfl
  · exact c9_group_construction.2.2.1 [("id", .str "g")] "g" rfl rfl

/-! ## Status-level access and preservation lemmas -/

theorem gAt_modGroup_self {s : Status} {gi : Nat} (f : Group → Group)
    (h : gi < s.groups.length) : gAt (s.modGroup gi f) gi = f (gAt s gi) :=
  getD_modAt_self f default h

theorem gAt_modGroup_ne {gi gj : Nat} (s : Status) (f : Group → Group)
    (h : gi ≠ gj) : gAt (s.modGroup gi f) gj = gAt s gj :=
  getD_modAt_ne f s.groups default h

theorem gAt_modGroup (s : Status) (f : Group → Group) (gi gj : Nat) :
    gAt (s.modGroup gi f) gj
      = if gi = gj ∧ gj < s.groups.length then f (gAt s gj) else gAt s gj :=
  getD_modAt f gi gj s.groups default

theorem gAt_writeStatus_tasks (s : Status) (gi : Nat) :
    (gAt (writeStatus s) gi).tasks = (gAt s gi).tasks := by
  have h := @getD_map_rel Group Group (fun a b => b.tasks = a.tasks)
    (fun g => if g.skip then g else g.progressUpd)
    s.groups gi default default
    (fun g => by by_cases hg : g.skip <;> simp [hg, Group.progressUpd]) rfl
  exact h

theorem taskAt_writeStatus (s : Status) (gi ti : Nat) :
    taskAt (writeStatus s) gi ti = taskAt s gi ti := by
  unfold taskAt
  rw [gAt_writeStatus_tasks]

theorem gAt_writeStatus_skip (s : Status) {gi : Nat} (h : (gAt s gi).skip = true) :
    gAt (writeStatus s) gi = gAt s gi := by
  have hrel := @getD_map_rel Group Group (fun a b => a.skip = true → b = a)
    (fun g => if g.skip then g else g.progressUpd)
    s.groups gi default default
    (fun g hg => by simp [hg]) (fun hd => rfl)
  exact hrel h

theorem taskAt_modGroup_tasks (s : Status) (gi : Nat) (f : Group → Group)
    (h : ∀ g, (f g).tasks = g.tasks) (gj tj : Nat) :
    taskAt (s.modGroup gi f) gj tj = taskAt s gj tj := by
  unfold taskAt
  rw [gAt_modGroup]
  by_cases hc : gi = gj ∧ gj < s.groups.length
  · rw [if_pos hc, h]
  · rw [if_neg hc]

theorem taskAt_modGroup_via (s : Status) (gi ti : Nat) (fg : Group → Group)
    (f : Task → Task) (hfg : ∀ g, (fg g).tasks = modAt f ti g.tasks) (gj tj : Nat) :
    taskAt (s.modGroup gi fg) gj tj
      = if gi = gj ∧ gj < s.groups.length ∧ ti = tj ∧ tj < (gAt s gj).tasks.length
        then f (taskAt s gj tj) else taskAt s gj tj := by
  unfold taskAt
  rw [gAt_modGroup]
  by_cases hg : gi = gj ∧ gj < s.groups.length
  · rw [if_pos hg, hfg]
    rw [getD_modAt]
    by_cases ht : ti = tj ∧ tj < (gAt s gj).tasks.length
    · rw [if_pos ht, if_pos ⟨hg.1, hg.2, ht.1, ht.2⟩]
    · rw [if_neg ht, if_neg (by tauto)]
  · rw [if_neg hg, if_neg (by tauto)]

theorem taskAt_modTask (s : Status) (gi ti : Nat) (f : Task → Task) (gj tj : Nat) :
    taskAt (s.modTask gi ti f) gj tj
      = if gi = gj ∧ gj < s.groups.length ∧ ti = tj ∧ tj < (gAt s gj).tasks.length
        then f (taskAt s gj tj) else taskAt s gj tj :=
  taskAt_modGroup_via s gi ti _ f (fun _ => rfl) gj tj

theorem taskAt_modTask_self {s : Status} {gi ti : Nat} (f : Task → Task)
    (hg : gi < s.groups.length) (ht : ti < (gAt s gi).tasks.length) :
    taskAt (s.modTask gi ti f) gi ti = f (taskAt s gi ti) := by
  rw [taskAt_modTask, if_pos ⟨rfl, hg, rfl, ht⟩]

/-- Flags (`started`, `finished`) of every task are untouched by the line
classifier. -/
theorem procLineCore_flags (s : Status) (gi ti : Nat) (l : String) (gj tj : Nat) :
    ((taskAt (procLineCore s gi ti l).1 gj tj).started,
     (taskAt (procLineCore s gi ti l).1 gj tj).finished)
      = ((taskAt s gj tj).started, (taskAt s gj tj).finished) := by
  by_cases h1 : strStarts "progress:: " l = true
  · cases hp : parseFloat? (trimSpace (dropFront "progress:: " l)) with
    | none =>
      have hs : (procLineCore s gi ti l).1 = s := by simp [procLineCore, h1, hp]
      rw [hs]
    | some v =>
      have hs : (procLineCore s gi ti l).1
          = s.modTask gi ti fun t => { t with percent := v } := by
        simp [procLineCore, h1, hp]
      rw [hs, taskAt_modTask]
      by_cases hc : gi = gj ∧ gj < s.groups.length ∧ ti = tj ∧ tj < (gAt s gj).tasks.length
      · rw [if_pos hc]
      · rw [if_neg hc]
  · by_cases h2 : strStarts "output:: " l = true
    · have hs : taskAt (procLineCore s gi ti l).1 gj tj
          = taskAt (s.modGroup gi fun g =>
              { g with lastMessage := trimSpace (dropFront "output:: " l) }) gj tj := by
        simp [procLineCore, h1, h2]
        rfl
      rw [hs, taskAt_modGroup_tasks s gi
        (fun g => { g with lastMessage := trimSpace (dropFront "output:: " l) })
        (fun _ => rfl) gj tj]
    · by_cases h3 : strStarts "error:: " l = true
      · have hs : taskAt (procLineCore s gi ti l).1 gj tj
            = taskAt (s.modGroup gi fun g =>
                { g.modTask ti (fun t => { t with error := trimSpace (dropFront "error:: " l) })
                  with error := trimSpace (dropFront "error:: " l) }) gj tj := by
          simp [procLineCore, h1, h2, h3]
          rfl
        rw [hs, taskAt_modGroup_via s gi ti _
          (fun t => { t with error := trimSpace (dropFront "error:: " l) }) (fun g => rfl)]
        by_cases hc : gi = gj ∧ gj < s.groups.length ∧ ti = tj ∧ tj < (gAt s gj).tasks.length
        · rw [if_pos hc]
        · rw [if_neg hc]
      · have hs : (procLineCore s gi ti l).1 = s := by simp [procLineCore, h1, h2, h3]
        rw [hs]

theorem procLine_fst (s : Status) (gi ti : Nat) (l : String) :
    (procLine s gi ti l).1
      = if (procLineCore s gi ti l).2 then writeStatus (procLineCore s gi ti l).1
        else (procLineCore s gi ti l).1 := by
  by_cases hk : (procLineCore s gi ti l).2 = true
  · simp [procLine, hk]
  · simp [procLine, hk]

theorem procLine_flags (s : Status) (gi ti : Nat) (l : String) (gj tj : Nat) :
    ((taskAt (procLine s gi ti l).1 gj tj).started,
     (taskAt (procLine s gi ti l).1 gj tj).finished)
      = ((taskAt s gj tj).started, (taskAt s gj tj).finished) := by
  rw [procLine_fst]
  by_cases hk : (procLineCore s gi ti l).2 = true
  · rw [if_pos hk, taskAt_writeStatus]
    exact procLineCore_flags s gi ti l gj tj
  · rw [if_neg hk]
    exact procLineCore_flags s gi ti l gj tj

theorem runLines_fst (gi ti : Nat) (s : Status) (l : String) (ls : List String) :
    (runLines gi ti s (l :: ls)).1 = (runLines gi ti (procLine s gi ti l).1 ls).1 := rfl

theorem runLines_flags (gi ti : Nat) (s : Status) (ls : List String) (gj tj : Nat) :
    ((taskAt (runLines gi ti s ls).1 gj tj).started,
     (taskAt (runLines gi ti s ls).1 gj tj).finished)
      = ((taskAt s gj tj).started, (taskAt s gj tj).finished) := by
  induction ls generalizing s with
  | nil => rfl
  | cons l ls ih =>
    rw [runLines_fst]
    rw [ih (procLine s gi ti l).1]
    exact procLine_flags s gi ti l gj tj

theorem modGroup_length (s : Status) (gi : Nat) (f : Group → Group) :
    (s.modGroup gi f).groups.length = s.groups.length :=
  length_modAt f gi s.groups

theorem writeStatus_length (s : Status) :
    (writeStatus s).groups.length = s.groups.length := by
  show (s.groups.map _).length = _
  rw [List.length_map]

theorem taskAt_eq_getD (s : Status) (gi ti : Nat) :
    taskAt s gi ti = ((gAt s gi).tasks).getD ti default := rfl

theorem writeStatus_finished (s : Status) : (writeStatus s).finished = s.finished := rfl

theorem writeStatus_started (s : Status) : (writeStatus s).started = s.started := rfl

theorem writeStatus_error (s : Status) : (writeStatus s).error = s.error := rfl

theorem writeStatus_currentGroup (s : Status) :
    (writeStatus s).currentGroup = s.currentGroup := rfl

theorem writeStatus_currentTask (s : Status) :
    (writeStatus s).currentTask = s.currentTask := rfl

theorem writeStatus_lastMessage (s : Status) :
    (writeStatus s).lastMessage = s.lastMessage := rfl

/-! ## Shape preservation -/

theorem shape_length (s : Status) : (shape s).length = s.groups.length :=
  List.length_map _ _

theorem shape_getD (s : Status) (gi : Nat) :
    (shape s).getD gi 0 = (gAt s gi).tasks.length := by
  have h := @getD_map_rel Group Nat (fun (g : Group) (n : Nat) => g.tasks.length = n)
    (fun g => g.tasks.length) s.groups gi default 0
    (fun _ => rfl) rfl
  exact h.symm

theorem shape_writeStatus (s : Status) : shape (writeStatus s) = shape s := by
  show (s.groups.map _).map _ = _
  rw [List.map_map]
  apply List.map_congr_left
  intro g _
  by_cases hg : g.skip <;> simp [hg, Group.progressUpd]

theorem shape_modGroup (s : Status) (gi : Nat) (f : Group → Group)
    (hf : ∀ g, (f g).tasks.length = g.tasks.length) :
    shape (s.modGroup gi f) = shape s :=
  map_modAt_eq _ f gi s.groups hf

theorem shape_modTask (s : Status) (gi ti : Nat) (f : Task → Task) :
    shape (s.modTask gi ti f) = shape s :=
  shape_modGroup s gi _ fun g => length_modAt f ti g.tasks

theorem shape_procLineCore (s : Status) (gi ti : Nat) (l : String) :
    shape (procLineCore s gi ti l).1 = shape s := by
  unfold procLineCore
  by_cases h1 : strStarts "progress:: " l = true
  · simp only [h1, if_true]
    cases hp : parseFloat? (trimSpace (dropFront "progress:: " l)) with
    | none => rfl
    | some v => exact shape_modTask s gi ti _
  · by_cases h2 : strStarts "output:: " l = true
    · simp only [h1, h2, if_false, if_true]
      exact shape_modGroup s gi _ fun g => rfl
    · by_cases h3 : strStarts "error:: " l = true
      · simp only [h1, h2, h3, if_false, if_true]
        exact shape_modGroup s gi _ fun g => length_modAt _ ti g.tasks
      · simp [h1, h2, h3]

theorem shape_procLine (s : Status) (gi ti : Nat) (l : String) :
    shape (procLine s gi ti l).1 = shape s := by
  rw [procLine_fst]
  by_cases hk : (procLineCore s gi ti l).2 = true
  · rw [if_pos hk, shape_writeStatus, shape_procLineCore]
  · rw [if_neg hk, shape_procLineCore]

theorem shape_runLines (gi ti : Nat) (s : Status) (ls : List String) :
    shape (runLines gi ti s ls).1 = shape s := by
  induction ls generalizing s with
  | nil => rfl
  | cons l ls ih =>
    rw [runLines_fst, ih, shape_procLine]

theorem groups_length_of_shape {s s2 : Status} (h : shape s2 = shape s) :
    s2.groups.length = s.groups.length := by
  have h1 := shape_length s2
  have h2 := shape_length s
  rw [h] at h1
  omega

theorem tasks_length_of_shape {s s2 : Status} (h : shape s2 = shape s) (gi : Nat) :
    (gAt s2 gi).tasks.length = (gAt s gi).tasks.length := by
  have h1 := shape_getD s2 gi
  have h2 := shape_getD s gi
  rw [h] at h1
  exact h1.symm.trans h2

/-! ## Claim C8: the workflow error field is not sticky -/

/-- C8 counterexample: in a single run of a one-task workflow whose script
emits `error:: A` and then `error:: B`, the workflow error is first
persisted as "A" and later overwritten to "B" — an already-set
`Status.Error` is overwritten by a later event of the same run. -/
theorem c8_sticky_counterexample :
    ((start c8Env c8Status).trace.getD 2 default).error = "A" ∧
    (start c8Env c8Status).s.error = "B" ∧
    (start c8Env c8Status).out = .ok := by decide

/-- C8 (amended): the error fields are last-writer-wins: every parsed
`error::` line overwrites the task, group and workflow error with its
payload regardless of their previous values; only the task-exit error path
respects an existing task self-report (`recordRunError` is the identity when
the task error is nonempty and records at all three levels, also setting
`Status.Finished`, when it is empty). -/
theorem c8_error_last_writer_wins :
    (∀ (s : Status) (gi ti : Nat) (x : String),
      procLineCore s gi ti ("error:: " ++ x)
        = ({ s.modGroup gi (fun g =>
              { g.modTask ti (fun t => { t with error := trimSpace x })
                with error := trimSpace x }) with error := trimSpace x }, true)) ∧
    (∀ (s : Status) (gi ti : Nat) (e : String), (taskAt s gi ti).error ≠ "" →
      recordRunError s gi ti e = s) ∧
    (∀ (s : Status) (gi ti : Nat) (e : String), (taskAt s gi ti).error = "" →
      recordRunError s gi ti e
        = { s.modGroup gi (fun g =>
            { g.modTask ti (fun t => { t with error := e })
              with error := e }) with error := e, finished := true }) := by
  refine ⟨?_, ?_, ?_⟩
  · intro s gi ti x
    have h1 : strStarts "progress:: " ("error:: " ++ x) = false := by
      simp [strStarts, String.toList, String.data_append, List.isPrefixOf]
    have h2 : strStarts "output:: " ("error:: " ++ x) = false := by
      simp [strStarts, String.toList, String.data_append, List.isPrefixOf]
    have h3 : strStarts "error:: " ("error:: " ++ x) = true := by
      simp [strStarts, String.toList, String.data_append, List.isPrefixOf]
    have h4 : dropFront "error:: " ("error:: " ++ x) = x := by
      simp [dropFront, String.toList, String.data_append]
    simp [procLineCore, h1, h2, h3, h4]
  · intro s gi ti e h
    simp [recordRunError, h]
  · intro s gi ti e h
    simp [recordRunError, h]

/-- Witness for `c8_error_last_writer_wins` at concrete inputs. -/
theorem c8_error_last_writer_wins_witness :
    procLineCore c8Status 0 0 ("error:: " ++ "B\n")
      = ({ c8Status.modGroup 0 (fun g =>
            { g.modTask 0 (fun t => { t with error := trimSpace "B\n" })
              with error := trimSpace "B\n" }) with error := trimSpace "B\n" }, true) ∧
    recordRunError { c8Status with error := "A" } 0 0 "exit status 1"
      = { ({ c8Status with error := "A" }).modGroup 0 (fun g =>
          { g.modTask 0 (fun t => { t with error := "exit status 1" })
            with error := "exit status 1" })
          with error := "exit status 1", finished := true } :=
  ⟨c8_error_last_writer_wins.1 c8Status 0 0 "B\n",
   c8_error_last_writer_wins.2.2 { c8Status with error := "A" } 0 0 "exit status 1" (by decide)⟩

/-! ## Claim C4 counterexample -/

/-- C4 counterexample: a group whose skip predicate exits 0 gets
`skip = true` but is then passed over entirely: its `finished` and `started`
flags stay false and its task is neither run (empty log) nor synthetically
marked — contradicting the claimed `finished = true` and task marking. -/
theorem c4_skipped_group_counterexample :
    (start c4Env c4Status).out = .ok ∧
    (gAt (start c4Env c4Status).s 0).skip = true ∧
    (gAt (start c4Env c4Status).s 0).finished = false ∧
    (gAt (start c4Env c4Status).s 0).started = false ∧
    (taskAt (start c4Env c4Status).s 0 0).started = false ∧
    (taskAt (start c4Env c4Status).s 0 0).finished = false ∧
    (start c4Env c4Status).log = [] := by decide

/-! ## Claim C10: a failed MkdirTemp is reported as success -/

/-- C10: when `os.MkdirTemp` fails, `Task.run` returns `nil` — success —
without the subprocess ever running; the caller (`Workflow.Start`) then
treats the task as completed: it does not stop (`esc = none`) and marks the
task finished. -/
theorem c10_mkdirtemp_reported_success :
    (∀ re : RunSysEnv, re.mkdirTempFails = true → Task.runSys re = (none, false)) ∧
    (∀ (env : Env) (s : Status) (gi ti : Nat) (t : Task),
      (env.beh t.cmd).runErr = none → t.exits = false →
      gi < s.groups.length → ti < (gAt s gi).tasks.length →
      (runTaskBody env s gi ti t).esc = none ∧
      (taskAt (runTaskBody env s gi ti t).s gi ti).finished = true) := by
  constructor
  · intro re h
    simp [Task.runSys, h]
  · intro env s gi ti t hr hx hg ht
    have hesc : (runTaskBody env s gi ti t).esc = none := by
      simp [runTaskBody, hr, hx]
    refine ⟨hesc, ?_⟩
    have hs : (runTaskBody env s gi ti t).s
        = writeStatus ((runLines gi ti
            ((writeStatus { s with currentTask := t.id }).modTask gi ti
              fun u => { u with started := true })
            (forwardLines (env.beh t.cmd).lines)).1.modTask gi ti
            fun u => { u with finished := true }) := by
      simp [runTaskBody, hr, hx]
    rw [hs, taskAt_writeStatus]
    have hshape : shape (runLines gi ti
        ((writeStatus { s with currentTask := t.id }).modTask gi ti
          fun u => { u with started := true })
        (forwardLines (env.beh t.cmd).lines)).1 = shape s := by
      rw [shape_runLines, shape_modTask, shape_writeStatus]
      rfl
    rw [taskAt_modTask_self _ (by rw [groups_length_of_shape hshape]; exact hg)
      (by rw [tasks_length_of_shape hshape]; exact ht)]

/-- Witness for `c10_mkdirtemp_reported_success` at concrete inputs. -/
theorem c10_mkdirtemp_reported_success_witness :
    Task.runSys { mkdirTempFails := true, mknodErr := none,
                  startErr := none, waitErr := none } = (none, false) ∧
    (runTaskBody c2Env c8Status 0 0 (taskAt c8Status 0 0)).esc = none ∧
    (taskAt (runTaskBody c2Env c8Status 0 0 (taskAt c8Status 0 0)).s 0 0).finished = true :=
  ⟨c10_mkdirtemp_reported_success.1 _ rfl,
   (c10_mkdirtemp_reported_success.2 c2Env c8Status 0 0 (taskAt c8Status 0 0)
      (by decide) (by decide) (by decide) (by decide)).1,
   (c10_mkdirtemp_reported_success.2 c2Env c8Status 0 0 (taskAt c8Status 0 0)
      (by decide) (by decide) (by decide) (by decide)).2⟩

/-! ## Claim C3: `exits` tasks -/

theorem runTaskBody_exits_parts (env : Env) (s : Status) (gi ti : Nat) (t : Task)
    (hr : (env.beh t.cmd).runErr = none) (hx : t.exits = true) :
    (runTaskBody env s gi ti t).esc = some .exited ∧
    (runTaskBody env s gi ti t).log = [t.cmd] ∧
    (runTaskBody env s gi ti t).s
      = writeStatus (runLines gi ti
          ((writeStatus { s with currentTask := t.id }).modTask gi ti
            fun u => { u with started := true })
          (forwardLines (env.beh t.cmd).lines)).1 ∧
    (runTaskBody env s gi ti t).trace.getLast? = some (persist (runTaskBody env s gi ti t).s) := by
  refine ⟨by simp [runTaskBody, hr, hx], by simp [runTaskBody, hr, hx],
    by simp [runTaskBody, hr, hx], ?_⟩
  simp only [runTaskBody, hr, hx, eq_self_iff_true, if_true]
  rw [List.getLast?_concat]

/-- C3: an `exits` task that completes successfully: the task loop leaves its
`finished` flag false (given it was false, as on a first execution) while
`started` is true, logs exactly this one command, and stops with the
`os.Exit(128)` outcome, the last persisted snapshot being the final state;
and on a resume whose loaded `currentTask` names an `exits` task, the seek
special-case advances past it — the loop equals the loop on the remaining
tasks with the task synthetically marked started+finished, nothing being
executed for it. -/
theorem c3_exits_task :
    (∀ (env : Env) (s : Status) (gi ti : Nat) (tis : List Nat),
      (taskAt s gi ti).exits = true →
      (env.beh (taskAt s gi ti).cmd).runErr = none →
      (taskAt s gi ti).finished = false →
      gi < s.groups.length → ti < (gAt s gi).tasks.length →
      (runTasks env gi s false (ti :: tis)).esc = some .exited ∧
      (runTasks env gi s false (ti :: tis)).log = [(taskAt s gi ti).cmd] ∧
      (taskAt (runTasks env gi s false (ti :: tis)).s gi ti).started = true ∧
      (taskAt (runTasks env gi s false (ti :: tis)).s gi ti).finished = false ∧
      (runTasks env gi s false (ti :: tis)).trace.getLast?
        = some (persist (runTasks env gi s false (ti :: tis)).s)) ∧
    (∀ (env : Env) (s : Status) (gi ti : Nat) (tis : List Nat),
      (taskAt s gi ti).id = s.currentTask →
      (taskAt s gi ti).exits = true →
      runTasks env gi s true (ti :: tis) = runTasks env gi (markTask s gi ti) false tis) ∧
    (∀ (s : Status) (gi ti : Nat), gi < s.groups.length → ti < (gAt s gi).tasks.length →
      (taskAt (markTask s gi ti) gi ti).started = true ∧
      (taskAt (markTask s gi ti) gi ti).finished = true) := by
  refine ⟨?_, ?_, ?_⟩
  · intro env s gi ti tis hx hr hf hg ht
    have hparts := runTaskBody_exits_parts env s gi ti (taskAt s gi ti) hr hx
    have hrun : runTasks env gi s false (ti :: tis)
        = ⟨(runTaskBody env s gi ti (taskAt s gi ti)).s, false,
           (runTaskBody env s gi ti (taskAt s gi ti)).trace,
           (runTaskBody env s gi ti (taskAt s gi ti)).log, some .exited⟩ := by
      show (match (runTaskBody env s gi ti (taskAt s gi ti)).esc with
        | some o => ({ s := (runTaskBody env s gi ti (taskAt s gi ti)).s, seeking := false,
                       trace := (runTaskBody env s gi ti (taskAt s gi ti)).trace,
                       log := (runTaskBody env s gi ti (taskAt s gi ti)).log,
                       esc := some o } : RunRes)
        | none => _) = _
      rw [hparts.1]
    rw [hrun]
    have hflags : ((taskAt (runTaskBody env s gi ti (taskAt s gi ti)).s gi ti).started,
        (taskAt (runTaskBody env s gi ti (taskAt s gi ti)).s gi ti).finished)
        = (true, false) := by
      rw [hparts.2.2.1, taskAt_writeStatus]
      have hsh1 : shape (writeStatus { s with currentTask := (taskAt s gi ti).id }) = shape s := by
        rw [shape_writeStatus]
        rfl
      have hg2 : gi < (writeStatus { s with currentTask := (taskAt s gi ti).id }).groups.length := by
        rw [groups_length_of_shape hsh1]
        exact hg
      have ht2 : ti < (gAt (writeStatus { s with currentTask := (taskAt s gi ti).id }) gi).tasks.length := by
        rw [tasks_length_of_shape hsh1]
        exact ht
      rw [runLines_flags, taskAt_modTask_self _ hg2 ht2, taskAt_writeStatus]
      show (true, (taskAt { s with currentTask := (taskAt s gi ti).id } gi ti).finished) = _
      rw [show taskAt { s with currentTask := (taskAt s gi ti).id } gi ti = taskAt s gi ti from rfl, hf]
    exact ⟨rfl, hparts.2.1, congrArg Prod.fst hflags, congrArg Prod.snd hflags, hparts.2.2.2⟩
  · intro env s gi ti tis hid hx
    have hbne : ((taskAt s gi ti).id != s.currentTask) = false := by
      simp [hid]
    simp [runTasks, hbne, hx]
  · intro s gi ti hg ht
    unfold markTask
    rw [taskAt_modTask_self _ hg ht]
    exact ⟨rfl, rfl⟩

/-- Witness for `c3_exits_task` at a concrete workflow: `t1` has `exits`. -/
theorem c3_exits_task_witness :
    (runTasks c3Env 0 c3Status false [0, 1]).esc = some .exited ∧
    (runTasks c3Env 0 c3Status false [0, 1]).log = [(taskAt c3Status 0 0).cmd] ∧
    (taskAt (runTasks c3Env 0 c3Status false [0, 1]).s 0 0).started = true ∧
    (taskAt (runTasks c3Env 0 c3Status false [0, 1]).s 0 0).finished = false ∧
    runTasks c3Env 0 { c3Status with currentTask := "t1" } true [0, 1]
      = runTasks c3Env 0 (markTask { c3Status with currentTask := "t1" } 0 0) false [1] ∧
    (taskAt (markTask c3Status 0 0) 0 0).started = true ∧
    (taskAt (markTask c3Status 0 0) 0 0).finished = true := by
  have h1 := c3_exits_task.1 c3Env c3Status 0 0 [1] (by decide) (by decide) (by decide)
    (by decide) (by decide)
  have h2 := c3_exits_task.2.1 c3Env { c3Status with currentTask := "t1" } 0 0 [1]
    (by decide) (by decide)
  have h3 := c3_exits_task.2.2 c3Status 0 0 (by decide) (by decide)
  exact ⟨h1.1, h1.2.1, h1.2.2.1, h1.2.2.2.1, h2, h3.1, h3.2⟩

/-! ## Loop unfolding lemmas -/

theorem runTasks_nil (env : Env) (gi : Nat) (s : Status) (b : Bool) :
    runTasks env gi s b [] = ⟨s, b, [], [], none⟩ := rfl

theorem runTasks_cons_escape (env : Env) (gi : Nat) (s : Status) (ti : Nat) (tis : List Nat)
    (o : Esc) (h : (runTaskBody env s gi ti (taskAt s gi ti)).esc = some o) :
    runTasks env gi s false (ti :: tis)
      = ⟨(runTaskBody env s gi ti (taskAt s gi ti)).s, false,
         (runTaskBody env s gi ti (taskAt s gi ti)).trace,
         (runTaskBody env s gi ti (taskAt s gi ti)).log, some o⟩ := by
  simp [runTasks, h]

theorem runTasks_cons_cont (env : Env) (gi : Nat) (s : Status) (ti : Nat) (tis : List Nat)
    (h : (runTaskBody env s gi ti (taskAt s gi ti)).esc = none) :
    runTasks env gi s false (ti :: tis)
      = ⟨(runTasks env gi (runTaskBody env s gi ti (taskAt s gi ti)).s false tis).s,
         (runTasks env gi (runTaskBody env s gi ti (taskAt s gi ti)).s false tis).seeking,
         (runTaskBody env s gi ti (taskAt s gi ti)).trace
           ++ (runTasks env gi (runTaskBody env s gi ti (taskAt s gi ti)).s false tis).trace,
         (runTaskBody env s gi ti (taskAt s gi ti)).log
           ++ (runTasks env gi (runTaskBody env s gi ti (taskAt s gi ti)).s false tis).log,
         (runTasks env gi (runTaskBody env s gi ti (taskAt s gi ti)).s false tis).esc⟩ := by
  simp [runTasks, h]

theorem runTasks_cons_seekskip (env : Env) (gi : Nat) (s : Status) (ti : Nat) (tis : List Nat)
    (h : (taskAt s gi ti).id ≠ s.currentTask) :
    runTasks env gi s true (ti :: tis) = runTasks env gi (markTask s gi ti) true tis := by
  simp [runTasks, h]

theorem runTasks_cons_seekhit_exits (env : Env) (gi : Nat) (s : Status) (ti : Nat)
    (tis : List Nat) (hid : (taskAt s gi ti).id = s.currentTask)
    (hx : (taskAt s gi ti).exits = true) :
    runTasks env gi s true (ti :: tis) = runTasks env gi (markTask s gi ti) false tis := by
  simp [runTasks, hid, hx]

theorem runTasks_cons_seekhit (env : Env) (gi : Nat) (s : Status) (ti : Nat)
    (tis : List Nat) (hid : (taskAt s gi ti).id = s.currentTask)
    (hx : (taskAt s gi ti).exits = false) :
    runTasks env gi s true (ti :: tis) = runTasks env gi s false (ti :: tis) := by
  simp [runTasks, hid, hx]

theorem runGroups_nil (env : Env) (s : Status) (b : Bool) :
    runGroups env s b [] = ⟨s, b, [], [], none⟩ := rfl

theorem runGroups_cons_skip (env : Env) (s : Status) (b : Bool) (gi : Nat) (gis : List Nat)
    (h : (gAt s gi).skip = true) :
    runGroups env s b (gi :: gis) = runGroups env s b gis := by
  simp [runGroups, h]

theorem runGroups_cons_seekskip (env : Env) (s : Status) (gi : Nat) (gis : List Nat)
    (hsk : (gAt s gi).skip = false) (h : (gAt s gi).id ≠ s.currentGroup) :
    runGroups env s true (gi :: gis) = runGroups env (markGroup s gi) true gis := by
  simp [runGroups, hsk, h]

theorem runGroups_cons_exec_escape (env : Env) (s : Status) (b : Bool) (gi : Nat)
    (gis : List Nat) (o : Esc) (hsk : (gAt s gi).skip = false)
    (hseek : b = false ∨ (gAt s gi).id = s.currentGroup)
    (h : (runTasks env gi (Status.modGroup { s with currentGroup := (gAt s gi).id } gi
        fun g0 => { g0 with started := true }) b
        (List.range (gAt s gi).tasks.length)).esc = some o) :
    runGroups env s b (gi :: gis)
      = ⟨(runTasks env gi (Status.modGroup { s with currentGroup := (gAt s gi).id } gi
            fun g0 => { g0 with started := true }) b
            (List.range (gAt s gi).tasks.length)).s,
         (runTasks env gi (Status.modGroup { s with currentGroup := (gAt s gi).id } gi
            fun g0 => { g0 with started := true }) b
            (List.range (gAt s gi).tasks.length)).seeking,
         (runTasks env gi (Status.modGroup { s with currentGroup := (gAt s gi).id } gi
            fun g0 => { g0 with started := true }) b
            (List.range (gAt s gi).tasks.length)).trace,
         (runTasks env gi (Status.modGroup { s with currentGroup := (gAt s gi).id } gi
            fun g0 => { g0 with started := true }) b
            (List.range (gAt s gi).tasks.length)).log, some o⟩ := by
  rcases hseek with rfl | hcur
  · simp [runGroups, hsk, h]
  · cases b with
    | false => simp [runGroups, hsk, h]
    | true =>
      rw [hcur] at h
      simp [runGroups, hsk, hcur, h]

theorem runGroups_cons_exec_cont (env : Env) (s : Status) (b : Bool) (gi : Nat)
    (gis : List Nat) (hsk : (gAt s gi).skip = false)
    (hseek : b = false ∨ (gAt s gi).id = s.currentGroup)
    (h : (runTasks env gi (Status.modGroup { s with currentGroup := (gAt s gi).id } gi
        fun g0 => { g0 with started := true }) b
        (List.range (gAt s gi).tasks.length)).esc = none) :
    runGroups env s b (gi :: gis)
      = (let r := runTasks env gi (Status.modGroup { s with currentGroup := (gAt s gi).id } gi
            fun g0 => { g0 with started := true }) b (List.range (gAt s gi).tasks.length)
         let s4 := writeStatus (r.s.modGroup gi fun g0 => { g0 with finished := true })
         let r2 := runGroups env s4 r.seeking gis
         ⟨r2.s, r2.seeking, r.trace ++ [persist s4] ++ r2.trace, r.log ++ r2.log, r2.esc⟩) := by
  rcases hseek with rfl | hcur
  · simp [runGroups, hsk, h]
  · cases b with
    | false => simp [runGroups, hsk, h]
    | true =>
      rw [hcur] at h
      simp [runGroups, hsk, hcur, h]

theorem start_eq (env : Env) (s0 : Status) :
    start env s0
      = (let s2 := writeStatus { skipEval env s0 with started := true }
         let r := runGroups env s2 (s0.currentTask != "") (List.range s2.groups.length)
         match r.esc with
         | some .exited => ⟨r.s, .exited, persist s2 :: r.trace, r.log, false⟩
         | some (.fail e) =>
           let sf := writeStatus { r.s with finished := true }
           ⟨sf, .fail e, persist s2 :: r.trace ++ [persist sf], r.log, true⟩
         | none =>
           let sf := writeStatus { r.s with finished := true }
           ⟨sf, .ok, persist s2 :: r.trace ++ [persist sf], r.log, true⟩) := rfl

/-! ## Claim C7: non-zero task exit -/

/-- C7: when `task.run` returns an error: the error is recorded on task,
group and workflow — with `Status.Finished` set — exactly when the task had
not already self-reported an error via `error::` (a self-reported message is
not overwritten); the task loop stops with escape `fail e` having executed
only this task's command; the group loop propagates the escape executing
nothing further; and on every non-`exits` return of `Start` the deferred
finaliser leaves `finished = true` on the final (persisted) status. -/
theorem c7_run_error_handling :
    (∀ (s : Status) (gi ti : Nat) (e : String), (taskAt s gi ti).error = "" →
      (recordRunError s gi ti e).error = e ∧
      (recordRunError s gi ti e).finished = true ∧
      (gi < s.groups.length → (gAt (recordRunError s gi ti e) gi).error = e) ∧
      (gi < s.groups.length → ti < (gAt s gi).tasks.length →
        (taskAt (recordRunError s gi ti e) gi ti).error = e)) ∧
    (∀ (s : Status) (gi ti : Nat) (e : String), (taskAt s gi ti).error ≠ "" →
      recordRunError s gi ti e = s) ∧
    (∀ (env : Env) (s : Status) (gi ti : Nat) (tis : List Nat) (e : String),
      (env.beh (taskAt s gi ti).cmd).runErr = some e →
      (runTasks env gi s false (ti :: tis)).esc = some (.fail e) ∧
      (runTasks env gi s false (ti :: tis)).log = [(taskAt s gi ti).cmd]) ∧
    (∀ (env : Env) (s : Status) (gi : Nat) (gis : List Nat) (o : Esc),
      (gAt s gi).skip = false →
      (runTasks env gi (Status.modGroup { s with currentGroup := (gAt s gi).id } gi
          fun g0 => { g0 with started := true }) false
          (List.range (gAt s gi).tasks.length)).esc = some o →
      (runGroups env s false (gi :: gis)).esc = some o ∧
      (runGroups env s false (gi :: gis)).log
        = (runTasks env gi (Status.modGroup { s with currentGroup := (gAt s gi).id } gi
            fun g0 => { g0 with started := true }) false
            (List.range (gAt s gi).tasks.length)).log) ∧
    (∀ (env : Env) (s0 : Status), (start env s0).out ≠ .exited →
      (start env s0).s.finished = true) := by
  refine ⟨?_, ?_, ?_, ?_, ?_⟩
  · intro s gi ti e h
    have heq : recordRunError s gi ti e
        = { s.modGroup gi (fun g => { g.modTask ti (fun t => { t with error := e })
            with error := e }) with error := e, finished := true } := by
      simp [recordRunError, h]
    refine ⟨by rw [heq], by rw [heq], ?_, ?_⟩
    · intro hg
      rw [heq]
      show (gAt (Status.modGroup s gi _) gi).error = e
      rw [gAt_modGroup_self _ hg]
    · intro hg ht
      rw [heq]
      show (taskAt (Status.modGroup s gi _) gi ti).error = e
      rw [taskAt_modGroup_via s gi ti _ (fun t => { t with error := e }) (fun _ => rfl),
        if_pos ⟨rfl, hg, rfl, ht⟩]
  · intro s gi ti e h
    simp [recordRunError, h]
  · intro env s gi ti tis e hr
    have hesc : (runTaskBody env s gi ti (taskAt s gi ti)).esc = some (.fail e) := by
      simp [runTaskBody, hr]
    have hlog : (runTaskBody env s gi ti (taskAt s gi ti)).log = [(taskAt s gi ti).cmd] := by
      simp [runTaskBody, hr]
    rw [runTasks_cons_escape env gi s ti tis (.fail e) hesc]
    exact ⟨rfl, hlog⟩
  · intro env s gi gis o hsk hesc
    rw [runGroups_cons_exec_escape env s false gi gis o hsk (Or.inl rfl) hesc]
    exact ⟨rfl, rfl⟩
  · intro env s0 hne
    rw [start_eq] at hne ⊢
    cases hesc : (runGroups env (writeStatus { skipEval env s0 with started := true })
        (s0.currentTask != "")
        (List.range (writeStatus { skipEval env s0 with started := true }).groups.length)).esc with
    | none => simp [hesc, writeStatus_finished]
    | some o =>
      cases o with
      | fail e => simp [hesc, writeStatus_finished]
      | exited => simp [hesc] at hne

/-- Witness for `c7_run_error_handling` at the concrete failing workflow. -/
theorem c7_run_error_handling_witness :
    (recordRunError c7Status 0 0 "exit status 1").error = "exit status 1" ∧
    recordRunError c7SelfStatus 0 0 "exit status 1" = c7SelfStatus ∧
    (runTasks c7Env 0 c7Status false [0, 1]).esc = some (.fail "exit status 1") ∧
    (runTasks c7Env 0 c7Status false [0, 1]).log = [(taskAt c7Status 0 0).cmd] ∧
    (start c7Env c7Status).s.finished = true := by
  refine ⟨(c7_run_error_handling.1 c7Status 0 0 "exit status 1" (by decide)).1,
    c7_run_error_handling.2.1 c7SelfStatus 0 0 "exit status 1" (by decide),
    (c7_run_error_handling.2.2.1 c7Env c7Status 0 0 [1] "exit status 1" (by decide)).1,
    (c7_run_error_handling.2.2.1 c7Env c7Status 0 0 [1] "exit status 1" (by decide)).2,
    c7_run_error_handling.2.2.2.2 c7Env c7Status (by decide)⟩

/-! ## Skipped groups are untouched by execution (claim C4) -/

theorem gAt_procLineCore_other (s : Status) (gi ti : Nat) (l : String) {gk : Nat}
    (hne : gi ≠ gk) : gAt (procLineCore s gi ti l).1 gk = gAt s gk := by
  by_cases h1 : strStarts "progress:: " l = true
  · cases hp : parseFloat? (trimSpace (dropFront "progress:: " l)) with
    | none =>
      have hs : (procLineCore s gi ti l).1 = s := by simp [procLineCore, h1, hp]
      rw [hs]
    | some v =>
      have hs : (procLineCore s gi ti l).1
          = s.modTask gi ti fun t => { t with percent := v } := by
        simp [procLineCore, h1, hp]
      rw [hs]
      exact gAt_modGroup_ne s _ hne
  · by_cases h2 : strStarts "output:: " l = true
    · have hs : (procLineCore s gi ti l).1.groups
          = (s.modGroup gi fun g =>
              { g with lastMessage := trimSpace (dropFront "output:: " l) }).groups := by
        simp [procLineCore, h1, h2]
      show (procLineCore s gi ti l).1.groups.getD gk default = _
      rw [hs]
      exact gAt_modGroup_ne s _ hne
    · by_cases h3 : strStarts "error:: " l = true
      · have hs : (procLineCore s gi ti l).1.groups
            = (s.modGroup gi fun g =>
                { g.modTask ti (fun t => { t with error := trimSpace (dropFront "error:: " l) })
                  with error := trimSpace (dropFront "error:: " l) }).groups := by
          simp [procLineCore, h1, h2, h3]
        show (procLineCore s gi ti l).1.groups.getD gk default = _
        rw [hs]
        exact gAt_modGroup_ne s _ hne
      · have hs : (procLineCore s gi ti l).1 = s := by simp [procLineCore, h1, h2, h3]
        rw [hs]

theorem gAt_procLine_skip (s : Status) (gi ti : Nat) (l : String) {gk : Nat}
    (hne : gi ≠ gk) (hsk : (gAt s gk).skip = true) :
    gAt (procLine s gi ti l).1 gk = gAt s gk := by
  rw [procLine_fst]
  by_cases hk : (procLineCore s gi ti l).2 = true
  · rw [if_pos hk, gAt_writeStatus_skip _ (by rw [gAt_procLineCore_other s gi ti l hne]; exact hsk),
      gAt_procLineCore_other s gi ti l hne]
  · rw [if_neg hk, gAt_procLineCore_other s gi ti l hne]

theorem gAt_runLines_skip (gi ti : Nat) (ls : List String) :
    ∀ (s : Status) {gk : Nat}, gi ≠ gk → (gAt s gk).skip = true →
      gAt (runLines gi ti s ls).1 gk = gAt s gk := by
  induction ls with
  | nil => intro s gk hne hsk; rfl
  | cons l ls ih =>
    intro s gk hne hsk
    rw [runLines_fst, ih _ hne (by rw [gAt_procLine_skip s gi ti l hne hsk]; exact hsk),
      gAt_procLine_skip s gi ti l hne hsk]

theorem gAt_recordRunError_other (s : Status) (gi ti : Nat) (e : String) {gk : Nat}
    (hne : gi ≠ gk) : gAt (recordRunError s gi ti e) gk = gAt s gk := by
  unfold recordRunError
  by_cases h : (taskAt s gi ti).error = ""
  · rw [if_pos h]
    show (Status.modGroup s gi _).groups.getD gk default = _
    exact gAt_modGroup_ne s _ hne
  · rw [if_neg h]

theorem gAt_runTaskBody_skip (env : Env) (s : Status) (gi ti : Nat) (t : Task) {gk : Nat}
    (hne : gi ≠ gk) (hsk : (gAt s gk).skip = true) :
    gAt (runTaskBody env s gi ti t).s gk = gAt s gk := by
  have h0 : gAt { s with currentTask := t.id } gk = gAt s gk := rfl
  have h1 : gAt (writeStatus { s with currentTask := t.id }) gk = gAt s gk := by
    rw [gAt_writeStatus_skip _ (by rw [h0]; exact hsk)]
    exact h0
  have h2 : gAt ((writeStatus { s with currentTask := t.id }).modTask gi ti
      fun u => { u with started := true }) gk = gAt s gk := by
    show gAt (Status.modGroup _ gi _) gk = _
    rw [gAt_modGroup_ne _ _ hne, h1]
  have h3 : gAt (runLines gi ti ((writeStatus { s with currentTask := t.id }).modTask gi ti
      fun u => { u with started := true }) (forwardLines (env.beh t.cmd).lines)).1 gk
      = gAt s gk := by
    rw [gAt_runLines_skip gi ti _ _ hne (by rw [h2]; exact hsk), h2]
  cases hr : (env.beh t.cmd).runErr with
  | some e =>
    have hs : (runTaskBody env s gi ti t).s
        = writeStatus (recordRunError (runLines gi ti
            ((writeStatus { s with currentTask := t.id }).modTask gi ti
              fun u => { u with started := true })
            (forwardLines (env.beh t.cmd).lines)).1 gi ti e) := by
      simp [runTaskBody, hr]
    rw [hs, gAt_writeStatus_skip _ (by rw [gAt_recordRunError_other _ gi ti e hne, h3]; exact hsk),
      gAt_recordRunError_other _ gi ti e hne, h3]
  | none =>
    cases hx : t.exits with
    | true =>
      have hs : (runTaskBody env s gi ti t).s
          = writeStatus (runLines gi ti ((writeStatus { s with currentTask := t.id }).modTask gi ti
              fun u => { u with started := true }) (forwardLines (env.beh t.cmd).lines)).1 := by
        simp [runTaskBody, hr, hx]
      rw [hs, gAt_writeStatus_skip _ (by rw [h3]; exact hsk), h3]
    | false =>
      have hs : (runTaskBody env s gi ti t).s
          = writeStatus ((runLines gi ti ((writeStatus { s with currentTask := t.id }).modTask gi ti
              fun u => { u with started := true })
              (forwardLines (env.beh t.cmd).lines)).1.modTask gi ti
              fun u => { u with finished := true }) := by
        simp [runTaskBody, hr, hx]
      have h4 : gAt ((runLines gi ti ((writeStatus { s with currentTask := t.id }).modTask gi ti
          fun u => { u with started := true })
          (forwardLines (env.beh t.cmd).lines)).1.modTask gi ti
          fun u => { u with finished := true }) gk = gAt s gk := by
        show gAt (Status.modGroup _ gi _) gk = _
        rw [gAt_modGroup_ne _ _ hne, h3]
      rw [hs, gAt_writeStatus_skip _ (by rw [h4]; exact hsk), h4]

theorem gAt_runTasks_skip (env : Env) (gi : Nat) (tis : List Nat) :
    ∀ (s : Status) (b : Bool) {gk : Nat}, gi ≠ gk → (gAt s gk).skip = true →
      gAt ((runTasks env gi s b tis).s) gk = gAt s gk := by
  induction tis with
  | nil => intro s b gk hne hsk; rfl
  | cons ti tis ih =>
    intro s b gk hne hsk
    have hmark : gAt (markTask s gi ti) gk = gAt s gk := by
      show gAt (Status.modGroup _ gi _) gk = _
      exact gAt_modGroup_ne s _ hne
    cases b with
    | true =>
      by_cases hid : (taskAt s gi ti).id = s.currentTask
      · cases hx : (taskAt s gi ti).exits with
        | true =>
          rw [runTasks_cons_seekhit_exits env gi s ti tis hid hx,
            ih _ false hne (by rw [hmark]; exact hsk), hmark]
        | false =>
          rw [runTasks_cons_seekhit env gi s ti tis hid hx]
          cases hesc : (runTaskBody env s gi ti (taskAt s gi ti)).esc with
          | some o =>
            rw [runTasks_cons_escape env gi s ti tis o hesc]
            exact gAt_runTaskBody_skip env s gi ti _ hne hsk
          | none =>
            rw [runTasks_cons_cont env gi s ti tis hesc]
            have hbody := gAt_runTaskBody_skip env s gi ti (taskAt s gi ti) hne hsk
            rw [ih _ false hne (by rw [hbody]; exact hsk), hbody]
      · rw [runTasks_cons_seekskip env gi s ti tis hid,
          ih _ true hne (by rw [hmark]; exact hsk), hmark]
    | false =>
      cases hesc : (runTaskBody env s gi ti (taskAt s gi ti)).esc with
      | some o =>
        rw [runTasks_cons_escape env gi s ti tis o hesc]
        exact gAt_runTaskBody_skip env s gi ti _ hne hsk
      | none =>
        rw [runTasks_cons_cont env gi s ti tis hesc]
        have hbody := gAt_runTaskBody_skip env s gi ti (taskAt s gi ti) hne hsk
        rw [ih _ false hne (by rw [hbody]; exact hsk), hbody]

theorem gAt_runGroups_skip (env : Env) (gis : List Nat) :
    ∀ (s : Status) (b : Bool) {gk : Nat}, (gAt s gk).skip = true →
      gAt ((runGroups env s b gis).s) gk = gAt s gk := by
  induction gis with
  | nil => intro s b gk hsk; rfl
  | cons gj gis ih =>
    intro s b gk hsk
    by_cases hskj : (gAt s gj).skip = true
    · rw [runGroups_cons_skip env s b gj gis hskj]
      exact ih s b hsk
    · have hskj2 : (gAt s gj).skip = false := by
        cases h : (gAt s gj).skip with
        | true => exact absurd h hskj
        | false => rfl
      have hne : gj ≠ gk := fun he => hskj (he ▸ hsk)
      by_cases hseek : b = true ∧ (gAt s gj).id ≠ s.currentGroup
      · have hmark : gAt (markGroup s gj) gk = gAt s gk := by
          unfold markGroup
          by_cases he : (gAt s gj).tasks.isEmpty
          · rw [if_pos he]
          · rw [if_neg he]
            exact gAt_modGroup_ne s _ hne
        rw [hseek.1, runGroups_cons_seekskip env s gj gis hskj2 hseek.2,
          ih _ true (by rw [hmark]; exact hsk), hmark]
      · have hor : b = false ∨ (gAt s gj).id = s.currentGroup := by
          cases b with
          | false => exact Or.inl rfl
          | true =>
            refine Or.inr ?_
            by_contra hx
            exact hseek ⟨rfl, hx⟩
        have hentry : gAt (Status.modGroup { s with currentGroup := (gAt s gj).id } gj
            fun g0 => { g0 with started := true }) gk = gAt s gk := by
          rw [gAt_modGroup_ne _ _ hne]
          rfl
        cases hesc : (runTasks env gj (Status.modGroup { s with currentGroup := (gAt s gj).id } gj
            fun g0 => { g0 with started := true }) b
            (List.range (gAt s gj).tasks.length)).esc with
        | some o =>
          rw [runGroups_cons_exec_escape env s b gj gis o hskj2 hor hesc]
          rw [gAt_runTasks_skip env gj _ _ b hne (by rw [hentry]; exact hsk), hentry]
        | none =>
          rw [runGroups_cons_exec_cont env s b gj gis hskj2 hor hesc]
          show gAt ((runGroups env _ _ gis).s) gk = _
          have hrt : gAt ((runTasks env gj (Status.modGroup { s with currentGroup := (gAt s gj).id }
              gj fun g0 => { g0 with started := true }) b
              (List.range (gAt s gj).tasks.length)).s) gk = gAt s gk := by
            rw [gAt_runTasks_skip env gj _ _ b hne (by rw [hentry]; exact hsk), hentry]
          have hs4 : gAt (writeStatus ((runTasks env gj
              (Status.modGroup { s with currentGroup := (gAt s gj).id } gj
                fun g0 => { g0 with started := true }) b
              (List.range (gAt s gj).tasks.length)).s.modGroup gj
              fun g0 => { g0 with finished := true })) gk = gAt s gk := by
            rw [gAt_writeStatus_skip _ (by rw [gAt_modGroup_ne _ _ hne, hrt]; exact hsk),
              gAt_modGroup_ne _ _ hne, hrt]
          rw [ih _ _ (by rw [hs4]; exact hsk), hs4]

/-- C4 (amended): a group whose skip predicate exits 0 is marked `skip = true`
by the evaluation step, and is then invisible to the run: `Start` leaves the
whole group — its `started`/`finished` flags and all its tasks — exactly as
loaded (in particular `finished` stays false on a fresh run and no task is
started, run, or synthetically marked), and the group contributes 0 to both
the numerator and the denominator of workflow progress, which are sums over
the non-skipped groups only. -/
theorem c4_skipped_group_invisible :
    (∀ (env : Env) (s0 : Status) (gi : Nat),
      (gAt s0 gi).skip_cmd ≠ "" → env.skips ((gAt s0 gi).skip_cmd) = true →
      (gAt (skipEval env s0) gi).skip = true) ∧
    (∀ (env : Env) (s0 : Status) (gi : Nat), (gAt (skipEval env s0) gi).skip = true →
      gAt (start env s0).s gi = gAt (skipEval env s0) gi) ∧
    (∀ s : Status, s.progressSums
      = ((((s.groups.filter fun g => !g.skip).map fun g => g.progressSums.1).sum),
         (((s.groups.filter fun g => !g.skip).map fun g => g.progressSums.2).sum))) := by
  refine ⟨?_, ?_, status_progressSums_filter⟩
  · intro env s0 gi hcmd hskips
    have h := @getD_map_rel Group Group
      (fun (g : Group) (g2 : Group) =>
        g.skip_cmd ≠ "" → env.skips g.skip_cmd = true → g2.skip = true)
      (fun g => if g.skip_cmd = "" then g
        else if env.skips g.skip_cmd then { g with skip := true } else g)
      s0.groups gi default default
      (fun g hg hs => by simp [hg, hs]) (fun hd => absurd rfl hd)
    exact h hcmd hskips
  · intro env s0 gi hsk
    have h1 : gAt { skipEval env s0 with started := true } gi = gAt (skipEval env s0) gi := rfl
    have h2 : gAt (writeStatus { skipEval env s0 with started := true }) gi
        = gAt (skipEval env s0) gi := by
      rw [gAt_writeStatus_skip _ (by rw [h1]; exact hsk)]
      exact h1
    have h3 : gAt ((runGroups env (writeStatus { skipEval env s0 with started := true })
        (s0.currentTask != "")
        (List.range (writeStatus { skipEval env s0 with started := true }).groups.length)).s) gi
        = gAt (skipEval env s0) gi := by
      rw [gAt_runGroups_skip env _ _ _ (by rw [h2]; exact hsk), h2]
    rw [start_eq]
    cases hesc : (runGroups env (writeStatus { skipEval env s0 with started := true })
        (s0.currentTask != "")
        (List.range (writeStatus { skipEval env s0 with started := true }).groups.length)).esc with
    | none =>
      simp only [hesc]
      rw [gAt_writeStatus_skip _ (by rw [show gAt { (runGroups env
        (writeStatus { skipEval env s0 with started := true }) (s0.currentTask != "")
        (List.range (writeStatus { skipEval env s0 with started := true }).groups.length)).s
        with finished := true } gi = gAt (skipEval env s0) gi from h3]; exact hsk)]
      exact h3
    | some o =>
      cases o with
      | exited =>
        simp only [hesc]
        exact h3
      | fail e =>
        simp only [hesc]
        rw [gAt_writeStatus_skip _ (by rw [show gAt { (runGroups env
          (writeStatus { skipEval env s0 with started := true }) (s0.currentTask != "")
          (List.range (writeStatus { skipEval env s0 with started := true }).groups.length)).s
          with finished := true } gi = gAt (skipEval env s0) gi from h3]; exact hsk)]
        exact h3

/-- Witness for `c4_skipped_group_invisible` at the concrete skip workflow. -/
theorem c4_skipped_group_invisible_witness :
    (gAt (skipEval c4Env c4Status) 0).skip = true ∧
    gAt (start c4Env c4Status).s 0 = gAt (skipEval c4Env c4Status) 0 ∧
    c5Status.progressSums
      = ((((c5Status.groups.filter fun g => !g.skip).map fun g => g.progressSums.1).sum),
         (((c5Status.groups.filter fun g => !g.skip).map fun g => g.progressSums.2).sum)) :=
  ⟨c4_skipped_group_invisible.1 c4Env c4Status 0 (by decide) (by decide),
   c4_skipped_group_invisible.2.1 c4Env c4Status 0
     (c4_skipped_group_invisible.1 c4Env c4Status 0 (by decide) (by decide)),
   c4_skipped_group_invisible.2.2 c5Status⟩

/-! ## Claim C2: resume idempotence -/

/-- C2 counterexample: in `c2Status` the middle group `B` has an empty task
list.  The snapshot persisted at `B`'s group end (trace index 4) names
`currentGroup = B` but `currentTask = tA` (the task of group `A`).  Resuming
from it, seeking never ends — `B`'s empty task loop cannot reach the named
task — so group `C` is synthetically seek-marked instead of executed: `cC`
is never run (empty log) and `tC`'s percent stays 0, while the uninterrupted
run ends with 7/10.  The two final statuses differ on a compared field, so
resume idempotence fails as stated. -/
theorem c2_resume_counterexample :
    (start c2Env c2Status).out = .ok ∧
    4 < (start c2Env c2Status).trace.length ∧
    ((start c2Env c2Status).trace.getD 4 default).currentGroup = "B" ∧
    ((start c2Env c2Status).trace.getD 4 default).currentTask = "tA" ∧
    (taskAt (start c2Env c2Status).s 2 0).percent = 7/10 ∧
    (start c2Env ((start c2Env c2Status).trace.getD 4 default)).out = .ok ∧
    (start c2Env ((start c2Env c2Status).trace.getD 4 default)).log = [] ∧
    (taskAt (start c2Env ((start c2Env c2Status).trace.getD 4 default)).s 2 0).percent = 0 ∧
    Status.view (start c2Env ((start c2Env c2Status).trace.getD 4 default)).s
      ≠ Status.view (start c2Env c2Status).s := by decide

/-! ## Scrub algebra: `writeStatus` factors through the non-derived fields -/

theorem writeStatus_groups (s : Status) :
    (writeStatus s).groups = s.groups.map fun g => if g.skip then g else g.progressUpd := rfl

theorem percentFloat_congr {a b : Status} (h : a.groups = b.groups) :
    a.percentFloat = b.percentFloat := by
  unfold Status.percentFloat Status.progressSums
  rw [h]

theorem progressUpd_id (g : Group) : g.progressUpd.id = g.id := rfl

theorem progressUpd_tasks (g : Group) : g.progressUpd.tasks = g.tasks := rfl

theorem progressUpd_skip_cmd (g : Group) : g.progressUpd.skip_cmd = g.skip_cmd := rfl

theorem progressUpd_skip (g : Group) : g.progressUpd.skip = g.skip := rfl

theorem progressUpd_started (g : Group) : g.progressUpd.started = g.started := rfl

theorem progressUpd_lastMessage (g : Group) : g.progressUpd.lastMessage = g.lastMessage := rfl

theorem progressUpd_error (g : Group) : g.progressUpd.error = g.error := rfl

theorem progressUpd_finished (g : Group) :
    g.progressUpd.finished = g.tasks.all (·.finished) := rfl

theorem progressUpd_percent (g : Group) :
    g.progressUpd.percent =
      if 0 < g.progressSums.2 then g.progressSums.1 / g.progressSums.2 * 100 else g.percent := rfl

theorem progressUpd_progressSums (g : Group) :
    g.progressUpd.progressSums = g.progressSums := by
  unfold Group.progressSums
  rw [progressUpd_tasks]

theorem scrubG_of_skip {g : Group} (h : g.skip = true) : scrubG g = g := by
  simp [scrubG, h]

theorem scrubG_skip (g : Group) : (scrubG g).skip = g.skip := by
  unfold scrubG
  split <;> rfl

theorem scrubG_id (g : Group) : (scrubG g).id = g.id := by
  unfold scrubG
  split <;> rfl

theorem scrubG_tasks (g : Group) : (scrubG g).tasks = g.tasks := by
  unfold scrubG
  split <;> rfl

theorem scrubG_skip_cmd (g : Group) : (scrubG g).skip_cmd = g.skip_cmd := by
  unfold scrubG
  split <;> rfl

theorem scrubG_started (g : Group) : (scrubG g).started = g.started := by
  unfold scrubG
  split <;> rfl

theorem scrubG_lastMessage (g : Group) : (scrubG g).lastMessage = g.lastMessage := by
  unfold scrubG
  split <;> rfl

theorem scrubG_error (g : Group) : (scrubG g).error = g.error := by
  unfold scrubG
  split <;> rfl

theorem scrubG_finished {g : Group} (h : g.skip = false) : (scrubG g).finished = false := by
  unfold scrubG
  rw [h]
  simp only [Bool.false_eq_true, if_false]

theorem scrubG_percent {g : Group} (h : g.skip = false) :
    (scrubG g).percent = if 0 < g.progressSums.2 then 0 else g.percent := by
  unfold scrubG
  rw [h]
  simp only [Bool.false_eq_true, if_false]

theorem scrubG_progressSums (g : Group) : (scrubG g).progressSums = g.progressSums := by
  unfold Group.progressSums
  rw [scrubG_tasks]

theorem progressUpd_scrubG {g : Group} (h : g.skip = false) :
    (scrubG g).progressUpd = g.progressUpd := by
  ext1 <;> simp only [progressUpd_id, progressUpd_tasks, progressUpd_skip_cmd, progressUpd_skip,
    progressUpd_started, progressUpd_lastMessage, progressUpd_error, progressUpd_finished,
    progressUpd_percent, scrubG_id, scrubG_tasks, scrubG_skip_cmd, scrubG_skip, scrubG_started,
    scrubG_lastMessage, scrubG_error, scrubG_progressSums, scrubG_percent h]
  by_cases hp : 0 < g.progressSums.2
  · rw [if_pos hp, if_pos hp]
  · rw [if_neg hp, if_neg hp, if_neg hp]

theorem scrubG_progressUpd {g : Group} (h : g.skip = false) :
    scrubG g.progressUpd = scrubG g := by
  have h2 : g.progressUpd.skip = false := by rw [progressUpd_skip]; exact h
  ext1 <;> simp only [scrubG_id, scrubG_tasks, scrubG_skip_cmd, scrubG_skip, scrubG_started,
    scrubG_lastMessage, scrubG_error, scrubG_finished h2, scrubG_finished h,
    scrubG_percent h2, scrubG_percent h, progressUpd_id, progressUpd_tasks,
    progressUpd_skip_cmd, progressUpd_skip, progressUpd_started, progressUpd_lastMessage,
    progressUpd_error, progressUpd_percent, progressUpd_progressSums]
  by_cases hp : 0 < g.progressSums.2
  · rw [if_pos hp, if_pos hp]
  · rw [if_neg hp, if_neg hp, if_neg hp]

theorem writeStatus_groups_map (a b : Status)
    (hg : a.groups.map (fun g => if g.skip then g else g.progressUpd)
        = b.groups.map (fun g => if g.skip then g else g.progressUpd))
    (hst : a.started = b.started) (hfin : a.finished = b.finished)
    (hlm : a.lastMessage = b.lastMessage) (hcg : a.currentGroup = b.currentGroup)
    (hct : a.currentTask = b.currentTask) (herr : a.error = b.error) :
    writeStatus a = writeStatus b := by
  have hpf : (writeStatus a).percent = (writeStatus b).percent := by
    show (Status.percentFloat
        { a with groups := a.groups.map fun g => if g.skip then g else g.progressUpd }).map goTrunc
      = (Status.percentFloat
        { b with groups := b.groups.map fun g => if g.skip then g else g.progressUpd }).map goTrunc
    rw [percentFloat_congr
      (show ({ a with groups := a.groups.map fun g => if g.skip then g else g.progressUpd }
          : Status).groups
        = ({ b with groups := b.groups.map fun g => if g.skip then g else g.progressUpd }
          : Status).groups from hg)]
  ext1 <;> simp only [writeStatus_groups, writeStatus_started, writeStatus_finished,
    writeStatus_lastMessage, writeStatus_currentGroup, writeStatus_currentTask,
    writeStatus_error, hg, hst, hfin, hlm, hcg, hct, herr, hpf]

theorem writeStatus_scrub (s : Status) : writeStatus (scrub s) = writeStatus s := by
  apply writeStatus_groups_map <;> try rfl
  show (s.groups.map scrubG).map (fun g => if g.skip then g else g.progressUpd) = _
  rw [List.map_map]
  apply List.map_congr_left
  intro g _
  show (if (scrubG g).skip = true then scrubG g else (scrubG g).progressUpd) = _
  rw [scrubG_skip]
  by_cases h : g.skip = true
  · rw [if_pos h, if_pos h, scrubG_of_skip h]
  · have h2 : g.skip = false := by
      cases hx : g.skip with
      | true => exact absurd hx h
      | false => rfl
    rw [if_neg h, if_neg h, progressUpd_scrubG h2]

theorem scrub_writeStatus (s : Status) : scrub (writeStatus s) = scrub s := by
  unfold scrub
  have hgs : (writeStatus s).groups.map scrubG = s.groups.map scrubG := by
    rw [writeStatus_groups, List.map_map]
    apply List.map_congr_left
    intro g _
    show scrubG (if g.skip = true then g else g.progressUpd) = scrubG g
    by_cases h : g.skip = true
    · rw [if_pos h]
    · have h2 : g.skip = false := by
        cases hx : g.skip with
        | true => exact absurd hx h
        | false => rfl
      rw [if_neg h, scrubG_progressUpd h2]
  ext1 <;> simp only [hgs, writeStatus_started, writeStatus_finished, writeStatus_lastMessage,
    writeStatus_currentGroup, writeStatus_currentTask, writeStatus_error]

theorem writeStatus_congr {a b : Status} (h : scrub a = scrub b) :
    writeStatus a = writeStatus b := by
  rw [← writeStatus_scrub a, h, writeStatus_scrub b]

theorem writeStatus_idem (s : Status) : writeStatus (writeStatus s) = writeStatus s :=
  writeStatus_congr (scrub_writeStatus s)

end WorkflowModel
